import Mathlib

/-!
Shallow embedding of the rpocket request-execution pipeline: the JSON data
model (`serde_json::Value`), the error taxonomy (`src/error.rs`), the
key-value storage and auth-state persistence (`src/store/mod.rs`,
`src/store/auth_storage.rs`, `src/service/auth_state.rs`), the client send
pipeline (`src/rpocket.rs`), the generic CRUD engine (`src/service/crud.rs`,
`src/service/record.rs`), the authentication flows (`src/service/record.rs`,
`src/service/admin.rs`) and the middleware builder (`src/rpocket.rs`).

External collaborators (the `reqwest` transport, the `url` crate's parser and
joiner, `serde_json`'s text layer) are abstracted at their interfaces, as the
specification's scope section directs: the transport is a function parameter,
URL parsing/joining are function parameters, and a stored string is modelled
by its content (an opaque raw string or the JSON document it spells).
-/

namespace RPocket

/-- JSON values, modelling `serde_json::Value`.  Numbers are restricted to
integers (`i64`); floating-point JSON numbers are not exercised by any claim.
An object is an ordered field list, which may mention a key twice (exactly
what `serde` emits when `#[serde(flatten)]` maps collide with named fields). -/
inductive Json where
  | null
  | bool (b : Bool)
  | num (n : Int)
  | str (s : String)
  | arr (items : List Json)
  | obj (fields : List (String × Json))

namespace Json

mutual
/-- Structural equality test for JSON values, recursing through the two
nested list positions. -/
def eqb (a b : Json) : Bool :=
  match a, b with
  | .null, .null => true
  | .bool x, .bool y => x == y
  | .num x, .num y => x == y
  | .str x, .str y => x == y
  | .arr x, .arr y => eqbArr x y
  | .obj x, .obj y => eqbObj x y
  | _, _ => false
def eqbArr (xs ys : List Json) : Bool :=
  match xs, ys with
  | [], [] => true
  | x :: xs, y :: ys => eqb x y && eqbArr xs ys
  | _, _ => false
def eqbObj (xs ys : List (String × Json)) : Bool :=
  match xs, ys with
  | [], [] => true
  | (k, v) :: xs, (l, w) :: ys => k == l && eqb v w && eqbObj xs ys
  | _, _ => false
end

mutual
theorem eqb_correct : ∀ a b : Json, eqb a b = true ↔ a = b := fun a b => by
  cases a with
  | arr x =>
    cases b with
    | arr y => simpa [eqb] using eqbArr_correct x y
    | null | bool _ | num _ | str _ | obj _ => simp [eqb]
  | obj x =>
    cases b with
    | obj y => simpa [eqb] using eqbObj_correct x y
    | null | bool _ | num _ | str _ | arr _ => simp [eqb]
  | null | bool _ | num _ | str _ => cases b <;> simp [eqb]
theorem eqbArr_correct : ∀ xs ys : List Json, eqbArr xs ys = true ↔ xs = ys := fun xs ys => by
  cases xs with
  | nil => cases ys <;> simp [eqbArr]
  | cons x xs =>
    cases ys with
    | nil => simp [eqbArr]
    | cons y ys => simp [eqbArr, eqb_correct x y, eqbArr_correct xs ys]
theorem eqbObj_correct : ∀ xs ys : List (String × Json), eqbObj xs ys = true ↔ xs = ys :=
  fun xs ys => by
  cases xs with
  | nil => cases ys <;> simp [eqbObj]
  | cons x xs =>
    cases ys with
    | nil => simp [eqbObj]
    | cons y ys =>
      obtain ⟨k, v⟩ := x
      obtain ⟨l, w⟩ := y
      simp [eqbObj, eqb_correct v w, eqbObj_correct xs ys, Prod.ext_iff, and_assoc]
end

instance : DecidableEq Json := fun a b => decidable_of_iff _ (eqb_correct a b)

/-- The JSON string a value is a parse of (a `serde_json::to_string` shape).
Only used to model reading a stored JSON document back as raw text; no claim
depends on the exact spelling. -/
def escapeString (s : String) : String :=
  (s.replace "\\" "\\\\").replace "\"" "\\\""

mutual
def render : Json → String
  | .null => "null"
  | .bool b => if b then "true" else "false"
  | .num n => toString n
  | .str s => "\"" ++ escapeString s ++ "\""
  | .arr items => "[" ++ renderList items ++ "]"
  | .obj fields => "\x7b" ++ renderFields fields ++ "\x7d"
def renderList : List Json → String
  | [] => ""
  | [x] => render x
  | x :: xs => render x ++ "," ++ renderList xs
def renderFields : List (String × Json) → String
  | [] => ""
  | [(k, v)] => "\"" ++ escapeString k ++ "\":" ++ render v
  | (k, v) :: xs => "\"" ++ escapeString k ++ "\":" ++ render v ++ "," ++ renderFields xs
end

/-- A string, if the value is a JSON string (how `serde` deserializes a
`String` field). -/
def asStr : Json → Option String
  | .str s => some s
  | _ => none

/-- An integer, if the value is a JSON integer (how `serde` deserializes an
`i64` field). -/
def asInt : Json → Option Int
  | .num n => some n
  | _ => none

end Json

/-- First value under a key in an association list. -/
def lookupAssoc {α : Type} (fields : List (String × α)) (key : String) : Option α :=
  match fields with
  | [] => none
  | (k, v) :: rest => if k = key then some v else lookupAssoc rest key

/-- Whether an association list mentions a key. -/
def hasKey {α : Type} (fields : List (String × α)) (key : String) : Bool :=
  (lookupAssoc fields key).isSome

/-- Whether an association list's keys are pairwise distinct (the invariant
of a Rust `HashMap` rendered as a list). -/
def keysNodup {α : Type} : List (String × α) → Bool
  | [] => true
  | (k, _) :: rest => !hasKey rest k && keysNodup rest

/-- `APIError` from `src/error.rs`: the error struct returned by the backend,
`{code: i64, message: String, data: Value}`. -/
structure APIError where
  code : Int
  message : String
  data : Json
deriving DecidableEq

/-- `RPocketError` from `src/error.rs`.  Payloads of foreign error types
(`serde_json::Error`, `reqwest::Error`, `url::ParseError`, boxed errors) are
not inspected by any code path modelled here, so those constructors carry no
data. -/
inductive RPocketError where
  | mutexError
  | serdeError
  | requestError
  | urlError
  | apiError (e : APIError)
  | error
deriving DecidableEq

/-- HTTP method of a dispatched request. -/
inductive Method where
  | get
  | post
  | patch
  | delete
deriving DecidableEq

/-- A request assembled by a service, as handed to the transport: the
`reqwest::RequestBuilder` state (method, URL, headers in append order, the
query-parameter pairs passed to `.query`, and the JSON body set by `.json`).
`url` is the string produced by joining the base URL with the resource path;
the join itself is abstracted (the `url` crate is out of scope). -/
structure ReqSpec where
  method : Method
  url : String
  headers : List (String × String)
  query : List (String × String)
  body : Option Json
deriving DecidableEq

/-- A transport-level HTTP response: status code plus the JSON document its
body holds (body text that is not JSON is modelled by a failing parse at the
use site). -/
structure HttpResponse where
  status : Nat
  body : Json
deriving DecidableEq

/-- `reqwest::StatusCode::is_success`: the status is in `[200, 300)`. -/
def isSuccess (status : Nat) : Bool :=
  200 ≤ status && status < 300

/-- `serde` deserialization of `APIError` (derived `Deserialize` on the
struct in `src/error.rs`): requires a JSON object; `code` must be an integer,
`message` a string, `data` any value; a repeated named field is an error;
unknown fields are ignored; a missing field is an error. -/
def parseAPIError (j : Json) : Option APIError :=
  match j with
  | .obj fields => go fields none none none
  | _ => none
where
  go : List (String × Json) → Option Int → Option String → Option Json → Option APIError
    | [], c, m, d =>
      match c with
      | none => none
      | some c =>
        match m with
        | none => none
        | some m =>
          match d with
          | none => none
          | some d => some ⟨c, m, d⟩
    | (k, v) :: rest, c, m, d =>
      if k = "code" then
        if c.isSome then none
        else
          match v.asInt with
          | some n => go rest (some n) m d
          | none => none
      else if k = "message" then
        if m.isSome then none
        else
          match v.asStr with
          | some s => go rest c (some s) d
          | none => none
      else if k = "data" then
        match d with
        | none => go rest c m (some v)
        | some _ => none
      else go rest c m d

/-- The status-classification tail of `PocketBase::send_request`
(`src/rpocket.rs` lines 252-264) and of `HTTPService::send`
(`src/service/http.rs` lines 43-50): a non-2xx response body is parsed as an
`APIError` and surfaced as `RPocketError::APIError`; if that parse fails the
`reqwest` JSON error is surfaced (`RPocketError::RequestError`); a 2xx
response is returned untouched. -/
def handleStatus (resp : HttpResponse) : Except RPocketError HttpResponse :=
  if !isSuccess resp.status then
    match parseAPIError resp.body with
    | some e => .error (.apiError e)
    | none => .error .requestError
  else .ok resp

/-- A value held by the key-value `Storage`.  The Rust trait stores plain
strings; the auth layer stores the bearer token as a raw string and the
identity as `serde_json::to_string` of the payload.  A stored string is
modelled by its content — either an opaque raw string or the JSON document it
spells — so that `serde_json`'s text round trip (`from_str` of `to_string`),
which is external to this repository, is the identity by construction. -/
inductive StoredValue where
  | str (s : String)
  | json (j : Json)
deriving DecidableEq

/-- The raw text of a stored value (what Rust's `Storage::get` returns). -/
def StoredValue.asString : StoredValue → String
  | .str s => s
  | .json j => j.render

/-- The `Storage` trait from `src/store/mod.rs`, over a backend state `σ`.
A failing `set`/`delete` returns the error and leaves the state unchanged
(true of both backends modelled below; the in-memory backend fails only on a
poisoned lock, which a panic-free execution never produces). -/
structure Storage (σ : Type) where
  get : σ → String → Except RPocketError (Option StoredValue)
  set : σ → String → StoredValue → Except RPocketError σ
  delete : σ → String → Except RPocketError σ

/-- The state of `MemoryStorage` (`src/store/mod.rs`): a map from keys to
stored strings, rendered as an association list with distinct keys. -/
def MemState : Type := List (String × StoredValue)

/-- `MemoryStorage::get`: the value under the key, if present. -/
def memGet (st : MemState) (key : String) : Option StoredValue :=
  lookupAssoc st key

/-- `MemoryStorage::set`: overwrite the value if the key is present,
otherwise insert the pair. -/
def memSet (st : MemState) (key : String) (v : StoredValue) : MemState :=
  match st with
  | [] => [(key, v)]
  | (k, w) :: rest => if k = key then (key, v) :: rest else (k, w) :: memSet rest key v

/-- `MemoryStorage::delete`: remove the key if present, otherwise do
nothing. -/
def memDelete (st : MemState) (key : String) : MemState :=
  st.filter (fun p => p.1 ≠ key)

/-- `MemoryStorage` as a `Storage`: every operation succeeds. -/
def memStorage : Storage MemState where
  get st key := .ok (memGet st key)
  set st key v := .ok (memSet st key v)
  delete st key := .ok (memDelete st key)

/-- A `Storage` backend whose writes to the keys in `failKeys` fail (the
trait's error path, e.g. a backend whose lock is poisoned for that write:
`RPocketError::MutexError`).  Reads, deletes and writes to other keys behave
like `MemoryStorage`. -/
def faultyStorage (failKeys : List String) : Storage MemState where
  get st key := .ok (memGet st key)
  set st key v := if key ∈ failKeys then .error .mutexError else .ok (memSet st key v)
  delete st key := .ok (memDelete st key)

/-- `TOKEN_KEY` from `src/store/auth_storage.rs`. -/
def TOKEN_KEY : String := "pb_auth"

/-- `USER_OR_ADMIN_KEY` from `src/store/auth_storage.rs`. -/
def USER_OR_ADMIN_KEY : String := "pb_user_or_admin"

/-- `BaseModel` from `src/model/mod.rs`. -/
structure BaseModel where
  id : String
  created : String
  updated : String
deriving DecidableEq

mutual
/-- `ExpandValue` from `src/model/mod.rs`: an untagged union of a single
related record (`Record(Box<Record>)`) or a list of related records. -/
inductive ExpandValue where
  | record (r : Record)
  | listRecords (rs : List Record)
/-- `Record` from `src/model/mod.rs`: the flattened `BaseModel`, the two
collection fields, the flattened dynamic-field map `data`
(`HashMap<String, Value>`, rendered as an association list; Rust key order is
arbitrary and its equality set-like, so the list order is a fixed
representative), and the optional `expand` map. -/
inductive Record where
  | mk (base : BaseModel) (collection_id collection_name : String)
       (data : List (String × Json)) (expand : Option (List (String × ExpandValue)))
end

/-- `Admin` from `src/model/mod.rs`. -/
structure Admin where
  base : BaseModel
  avatar : Int
  email : String
deriving DecidableEq

/-- `AuthPayload` from `src/store/auth_storage.rs` (and its duplicate in
`src/service/auth_state.rs`): the untagged user-or-admin identity union. -/
inductive AuthPayload where
  | user (r : Record)
  | admin (a : Admin)

namespace Record

def base : Record → BaseModel
  | .mk b _ _ _ _ => b

def collection_id : Record → String
  | .mk _ c _ _ _ => c

def collection_name : Record → String
  | .mk _ _ c _ _ => c

def data : Record → List (String × Json)
  | .mk _ _ _ d _ => d

def expand : Record → Option (List (String × ExpandValue))
  | .mk _ _ _ _ e => e

end Record

mutual
def Record.beq : Record → Record → Bool
  | .mk b1 ci1 cn1 d1 e1, .mk b2 ci2 cn2 d2 e2 =>
    decide (b1 = b2) && decide (ci1 = ci2) && decide (cn1 = cn2) && decide (d1 = d2) &&
    expandOptBeq e1 e2
def expandOptBeq : Option (List (String × ExpandValue)) →
    Option (List (String × ExpandValue)) → Bool
  | none, none => true
  | some m1, some m2 => expandEntriesBeq m1 m2
  | _, _ => false
def expandEntriesBeq : List (String × ExpandValue) → List (String × ExpandValue) → Bool
  | [], [] => true
  | (k1, v1) :: r1, (k2, v2) :: r2 =>
    decide (k1 = k2) && ExpandValue.beq v1 v2 && expandEntriesBeq r1 r2
  | _, _ => false
def ExpandValue.beq : ExpandValue → ExpandValue → Bool
  | .record r1, .record r2 => Record.beq r1 r2
  | .listRecords l1, .listRecords l2 => recordsBeq l1 l2
  | _, _ => false
def recordsBeq : List Record → List Record → Bool
  | [], [] => true
  | r :: rs, t :: ts => Record.beq r t && recordsBeq rs ts
  | _, _ => false
end

mutual
theorem Record.beq_iff_eq : ∀ a b : Record, Record.beq a b = true ↔ a = b
  | .mk b1 ci1 cn1 d1 e1, .mk b2 ci2 cn2 d2 e2 => by
      simp [Record.beq, expandOptBeq_iff_eq e1 e2, and_assoc]
theorem expandOptBeq_iff_eq : ∀ a b : Option (List (String × ExpandValue)),
    expandOptBeq a b = true ↔ a = b
  | none, none => by simp [expandOptBeq]
  | some m1, some m2 => by simp [expandOptBeq, expandEntriesBeq_iff_eq m1 m2]
  | none, some _ => by simp [expandOptBeq]
  | some _, none => by simp [expandOptBeq]
theorem expandEntriesBeq_iff_eq : ∀ a b : List (String × ExpandValue),
    expandEntriesBeq a b = true ↔ a = b
  | [], [] => by simp [expandEntriesBeq]
  | (k1, v1) :: r1, (k2, v2) :: r2 => by
      simp [expandEntriesBeq, expandValue_beq_iff_eq v1 v2, expandEntriesBeq_iff_eq r1 r2,
        Prod.ext_iff, and_assoc]
  | [], _ :: _ => by simp [expandEntriesBeq]
  | _ :: _, [] => by simp [expandEntriesBeq]
theorem expandValue_beq_iff_eq : ∀ a b : ExpandValue, ExpandValue.beq a b = true ↔ a = b
  | .record r1, .record r2 => by simp [ExpandValue.beq, Record.beq_iff_eq r1 r2]
  | .listRecords l1, .listRecords l2 => by simp [ExpandValue.beq, recordsBeq_iff_eq l1 l2]
  | .record _, .listRecords _ => by simp [ExpandValue.beq]
  | .listRecords _, .record _ => by simp [ExpandValue.beq]
theorem recordsBeq_iff_eq : ∀ a b : List Record, recordsBeq a b = true ↔ a = b
  | [], [] => by simp [recordsBeq]
  | r :: rs, t :: ts => by simp [recordsBeq, Record.beq_iff_eq r t, recordsBeq_iff_eq rs ts]
  | [], _ :: _ => by simp [recordsBeq]
  | _ :: _, [] => by simp [recordsBeq]
end

instance : DecidableEq Record := fun a b => decidable_of_iff _ (Record.beq_iff_eq a b)

instance : DecidableEq ExpandValue := fun a b => decidable_of_iff _ (expandValue_beq_iff_eq a b)

instance : DecidableEq AuthPayload := fun x y =>
  match x, y with
  | .user a, .user b =>
    if h : a = b then .isTrue (by rw [h]) else .isFalse (by simp [h])
  | .admin a, .admin b =>
    if h : a = b then .isTrue (by rw [h]) else .isFalse (by simp [h])
  | .user _, .admin _ => .isFalse (by simp)
  | .admin _, .user _ => .isFalse (by simp)

/-- Serialization of the flattened `BaseModel` (field order id, created,
updated, as `serde` emits it). -/
def BaseModel.toFields (b : BaseModel) : List (String × Json) :=
  [("id", .str b.id), ("created", .str b.created), ("updated", .str b.updated)]

mutual
/-- Derived `Serialize` for `Record`: fields in declaration order — the
flattened base, `collectionId`, `collectionName`, the flattened `data`
entries, then `expand` (`None` serializes as `null`).  A `data` key that
collides with a named field is emitted as a duplicate key, exactly as
`serde_json` does (see the request body matched by
`test_record_mutate_create` in `src/service/crud.rs`). -/
def Record.toJson : Record → Json
  | .mk base cid cname data expand =>
    .obj (base.toFields ++ [("collectionId", .str cid), ("collectionName", .str cname)]
          ++ data ++ [("expand", expandFieldToJson expand)])
def expandFieldToJson : Option (List (String × ExpandValue)) → Json
  | none => .null
  | some m => .obj (expandEntriesToJson m)
def expandEntriesToJson : List (String × ExpandValue) → List (String × Json)
  | [] => []
  | (k, v) :: rest => (k, ExpandValue.toJson v) :: expandEntriesToJson rest
/-- Derived `Serialize` for the untagged `ExpandValue`: the inner value's own
serialization. -/
def ExpandValue.toJson : ExpandValue → Json
  | .record r => r.toJson
  | .listRecords rs => .arr (recordsToJson rs)
def recordsToJson : List Record → List Json
  | [] => []
  | r :: rs => Record.toJson r :: recordsToJson rs
end

/-- Derived `Serialize` for `Admin`: flattened base, then `avatar`,
`email`. -/
def Admin.toJson (a : Admin) : Json :=
  .obj (a.base.toFields ++ [("avatar", .num a.avatar), ("email", .str a.email)])

/-- Derived `Serialize` for the untagged `AuthPayload`. -/
def AuthPayload.toJson : AuthPayload → Json
  | .user r => r.toJson
  | .admin a => a.toJson

/-- `serde`'s `FlatMapDeserializer` run for the flattened `BaseModel` field:
walk the buffer of keys not consumed by named fields, take every entry named
`id`, `created` or `updated` (a second occurrence is a duplicate-field error,
a non-string value a type error), and return the base together with the
entries left over, in order.  A missing base field is an error. -/
def baseFromBuffer : List (String × Json) → Option String → Option String → Option String →
    List (String × Json) → Option (BaseModel × List (String × Json))
  | [], i?, c?, u?, acc =>
    match i? with
    | none => none
    | some i =>
      match c? with
      | none => none
      | some c =>
        match u? with
        | none => none
        | some u => some (⟨i, c, u⟩, acc)
  | (k, v) :: rest, i?, c?, u?, acc =>
    if k = "id" then
      if i?.isSome then none
      else
        match v.asStr with
        | some s => baseFromBuffer rest (some s) c? u? acc
        | none => none
    else if k = "created" then
      if c?.isSome then none
      else
        match v.asStr with
        | some s => baseFromBuffer rest i? (some s) u? acc
        | none => none
    else if k = "updated" then
      if u?.isSome then none
      else
        match v.asStr with
        | some s => baseFromBuffer rest i? c? (some s) acc
        | none => none
    else baseFromBuffer rest i? c? u? (acc ++ [(k, v)])

mutual
/-- Derived `Deserialize` for `Record` (a struct with two `flatten` fields):
requires a JSON object; named fields (`collectionId`, `collectionName`,
`expand`) are parsed where they occur, erroring on a repeated name; all other
entries are buffered in order; then the flattened `BaseModel` consumes its
three keys from the buffer and the flattened `data` map collects what
remains.  A missing `collectionId`/`collectionName` is an error; a missing
`expand` is `None`. -/
def Record.fromJson : Json → Option Record
  | .obj fields => recordFromFields fields none none false none []
  | _ => none
termination_by j => (sizeOf j, 0)
def recordFromFields : List (String × Json) → Option String → Option String → Bool →
    Option (List (String × ExpandValue)) → List (String × Json) → Option Record
  | [], cid?, cname?, _, expand, buf =>
    match cid? with
    | none => none
    | some cid =>
      match cname? with
      | none => none
      | some cname =>
        match baseFromBuffer buf none none none [] with
        | some (base, data) => some (.mk base cid cname data expand)
        | none => none
  | (k, v) :: rest, cid?, cname?, expandSeen, expand, buf =>
    if k = "collectionId" then
      if cid?.isSome then none
      else
        match v.asStr with
        | some s => recordFromFields rest (some s) cname? expandSeen expand buf
        | none => none
    else if k = "collectionName" then
      if cname?.isSome then none
      else
        match v.asStr with
        | some s => recordFromFields rest cid? (some s) expandSeen expand buf
        | none => none
    else if k = "expand" then
      if expandSeen then none
      else
        match parseExpandField v with
        | some e => recordFromFields rest cid? cname? true e buf
        | none => none
    else recordFromFields rest cid? cname? expandSeen expand (buf ++ [(k, v)])
termination_by fields _ _ _ _ _ => (sizeOf fields, 0)
/-- The `expand` field's `Option<HashMap<String, ExpandValue>>` deserializer:
`null` is `None`, an object parses each value, anything else is an error. -/
def parseExpandField : Json → Option (Option (List (String × ExpandValue)))
  | .null => some none
  | .obj m =>
    match parseExpandEntries m with
    | some evs => some (some evs)
    | none => none
  | _ => none
termination_by j => (sizeOf j, 0)
def parseExpandEntries : List (String × Json) → Option (List (String × ExpandValue))
  | [] => some []
  | (k, v) :: rest =>
    match ExpandValue.fromJson v, parseExpandEntries rest with
    | some ev, some evs => some ((k, ev) :: evs)
    | _, _ => none
termination_by l => (sizeOf l, 0)
/-- Derived `Deserialize` for the untagged `ExpandValue`: try the variants in
declaration order — first a single `Record`, then a `Vec<Record>`.  A
`Record` only ever parses from an object and a `Vec<Record>` only from an
array, so the backtracking is resolved by the value's shape: an object is
tried as a `Record`, an array as a `Vec<Record>`, anything else fails. -/
def ExpandValue.fromJson : Json → Option ExpandValue
  | .obj fields =>
    match Record.fromJson (.obj fields) with
    | some r => some (.record r)
    | none => none
  | .arr items =>
    match recordsFromJson items with
    | some rs => some (.listRecords rs)
    | none => none
  | _ => none
termination_by j => (sizeOf j, 1)
def recordsFromJson : List Json → Option (List Record)
  | [] => some []
  | j :: rest =>
    match Record.fromJson j, recordsFromJson rest with
    | some r, some rs => some (r :: rs)
    | _, _ => none
termination_by l => (sizeOf l, 0)
end

/-- Derived `Deserialize` for `Admin` (one `flatten` field, no collector
map): named `avatar` (integer) and `email` (string) parsed where they occur,
other entries buffered; the flattened `BaseModel` consumes its keys from the
buffer; leftover buffered entries are ignored. -/
def Admin.fromJson : Json → Option Admin
  | .obj fields => go fields none none []
  | _ => none
where
  go : List (String × Json) → Option Int → Option String → List (String × Json) → Option Admin
    | [], av?, em?, buf =>
      match av? with
      | none => none
      | some av =>
        match em? with
        | none => none
        | some em =>
          match baseFromBuffer buf none none none [] with
          | some (base, _) => some ⟨base, av, em⟩
          | none => none
    | (k, v) :: rest, av?, em?, buf =>
      if k = "avatar" then
        if av?.isSome then none
        else
          match v.asInt with
          | some n => go rest (some n) em? buf
          | none => none
      else if k = "email" then
        if em?.isSome then none
        else
          match v.asStr with
          | some s => go rest av? (some s) buf
          | none => none
      else go rest av? em? (buf ++ [(k, v)])

/-- Derived `Deserialize` for the untagged `AuthPayload`: try `User(Record)`
first, then `Admin(Admin)`. -/
def AuthPayload.fromJson (j : Json) : Option AuthPayload :=
  match Record.fromJson j with
  | some r => some (.user r)
  | none =>
    match Admin.fromJson j with
    | some a => some (.admin a)
    | none => none

namespace AuthStorage

/-- `AuthStorage::token` (`src/store/auth_storage.rs`): the stored string
under the token key, passed through. -/
def token {σ : Type} (S : Storage σ) (token_key : String) (st : σ) :
    Except RPocketError (Option String) :=
  match S.get st token_key with
  | .error e => .error e
  | .ok o => .ok (o.map StoredValue.asString)

/-- `AuthStorage::user_or_admin` (`src/store/auth_storage.rs`): read the
identity key and deserialize the stored text as an `AuthPayload`
(`serde_json::from_str`, error surfaced as `SerdeError`).  An opaque raw
string under this key (never written by this library) is a failing parse. -/
def user_or_admin {σ : Type} (S : Storage σ) (user_or_admin_key : String) (st : σ) :
    Except RPocketError (Option AuthPayload) :=
  match S.get st user_or_admin_key with
  | .error e => .error e
  | .ok none => .ok none
  | .ok (some (.json j)) =>
    match AuthPayload.fromJson j with
    | some p => .ok (some p)
    | none => .error .serdeError
  | .ok (some (.str _)) => .error .serdeError

/-- `AuthStorage::save` (`src/store/auth_storage.rs` lines 104-108): the
token write (`save_token`) followed by the identity write
(`save_user_or_admin`, which stores `serde_json::to_string` of the payload —
total for these payloads).  The first failing write's error is returned; a
failure of the second write leaves the completed first write in place. -/
def save {σ : Type} (S : Storage σ) (token_key user_or_admin_key : String) (st : σ)
    (token : String) (record : AuthPayload) : Except RPocketError Unit × σ :=
  match S.set st token_key (.str token) with
  | .error e => (.error e, st)
  | .ok st1 =>
    match S.set st1 user_or_admin_key (.json record.toJson) with
    | .error e => (.error e, st1)
    | .ok st2 => (.ok (), st2)

end AuthStorage

namespace AuthStateService

/-- `AuthStateService::get_token` (`src/service/auth_state.rs`). -/
def get_token {σ : Type} (S : Storage σ) (token_key : String) (st : σ) :
    Except RPocketError (Option String) :=
  match S.get st token_key with
  | .error e => .error e
  | .ok o => .ok (o.map StoredValue.asString)

/-- `AuthStateService::get_user_or_admin` (`src/service/auth_state.rs`). -/
def get_user_or_admin {σ : Type} (S : Storage σ) (user_or_admin_key : String) (st : σ) :
    Except RPocketError (Option AuthPayload) :=
  match S.get st user_or_admin_key with
  | .error e => .error e
  | .ok none => .ok none
  | .ok (some (.json j)) =>
    match AuthPayload.fromJson j with
    | some p => .ok (some p)
    | none => .error .serdeError
  | .ok (some (.str _)) => .error .serdeError

/-- `AuthStateService::clear` (`src/service/auth_state.rs` lines 65-70):
delete the token key, then delete the identity key; the first failing delete
short-circuits. -/
def clear {σ : Type} (S : Storage σ) (token_key user_or_admin_key : String) (st : σ) :
    Except RPocketError Unit × σ :=
  match S.delete st token_key with
  | .error e => (.error e, st)
  | .ok st1 =>
    match S.delete st1 user_or_admin_key with
    | .error e => (.error e, st1)
    | .ok st2 => (.ok (), st2)

end AuthStateService

/-- `PocketBase::send_request` (`src/rpocket.rs` lines 224-266): append the
`Accept-Language` header from the client config, append an `Authorization`
header when the auth state currently holds a token (a failing token read
aborts the send), dispatch through the layered client (`transport` stands
for the assembled middleware-plus-executor chain), then classify the
response status (`handleStatus`).  `reqwest`'s `RequestBuilder::header`
appends, which the header list mirrors. -/
def PocketBase.send_request {σ : Type} (lang : String) (S : Storage σ) (token_key : String)
    (st : σ) (transport : ReqSpec → Except RPocketError HttpResponse) (req : ReqSpec) :
    Except RPocketError HttpResponse :=
  let req1 : ReqSpec := { req with headers := req.headers ++ [("Accept-Language", lang)] }
  match AuthStorage.token S token_key st with
  | .error e => .error e
  | .ok tok =>
    let req2 : ReqSpec :=
      match tok with
      | some t => { req1 with headers := req1.headers ++ [("Authorization", t)] }
      | none => req1
    match transport req2 with
    | .error e => .error e
    | .ok resp => handleStatus resp

/-- `DEFAULT_PER_PAGE` (`src/service/crud.rs`, `src/service/record.rs`). -/
def DEFAULT_PER_PAGE : Int := 30

/-- `DEFAULT_PAGE` (`src/service/crud.rs`, `src/service/record.rs`). -/
def DEFAULT_PAGE : Int := 1

/-- `CRUDGetListConfig` from `src/service/crud.rs`. -/
structure CRUDGetListConfig where
  per_page : Int
  page : Int
  query_params : List (String × String)

/-- `CRUDGetListConfig::default`. -/
def CRUDGetListConfig.defaultConfig : CRUDGetListConfig :=
  { per_page := DEFAULT_PER_PAGE, page := DEFAULT_PAGE, query_params := [] }

/-- `CRUDService::get_list` (`src/service/crud.rs` lines 69-97) up to the
dispatch: the request it assembles.  `join` abstracts `url::Url::join` on the
client's base URL; a join error surfaces as `UrlError`.  The query vector is
`perPage`, `page`, then the caller's pairs in order, passed to `.query`
as-is. -/
def CRUDService.get_list_request (join : String → String → Option String)
    (base_url base_path : String) (config : CRUDGetListConfig) :
    Except RPocketError ReqSpec :=
  match join base_url base_path with
  | none => .error .urlError
  | some u =>
    .ok { method := .get, url := u,
          headers := [("Content-Type", "application/json")],
          query := ("perPage", toString config.per_page) :: ("page", toString config.page)
                   :: config.query_params,
          body := none }

/-- `RecordGetListConfig` from `src/service/record.rs`. -/
structure RecordGetListConfig where
  per_page : Int
  page : Int
  query_params : List (String × String)

/-- `RecordGetListConfig::default`. -/
def RecordGetListConfig.defaultConfig : RecordGetListConfig :=
  { per_page := DEFAULT_PER_PAGE, page := DEFAULT_PAGE, query_params := [] }

/-- `RecordService::get_list` (`src/service/record.rs` lines 170-207) up to
the dispatch: `config.unwrap_or(default)`, the collection's records path,
then the same query assembly as the generic engine. -/
def RecordService.get_list_request (join : String → String → Option String)
    (base_url collection : String) (config? : Option RecordGetListConfig) :
    Except RPocketError ReqSpec :=
  let config := config?.getD RecordGetListConfig.defaultConfig
  match join base_url ("/api/collections/" ++ collection ++ "/records") with
  | none => .error .urlError
  | some u =>
    .ok { method := .get, url := u,
          headers := [("Content-Type", "application/json")],
          query := ("perPage", toString config.per_page) :: ("page", toString config.page)
                   :: config.query_params,
          body := none }

/-- `CRUDGetOneConfig` from `src/service/crud.rs`. -/
structure CRUDGetOneConfig where
  id : String
  query_params : List (String × String)

/-- `CRUDService::get_one` (`src/service/crud.rs` lines 100-118) up to the
dispatch: GET on `base_path/{id}`. -/
def CRUDService.get_one_request (join : String → String → Option String)
    (base_url base_path : String) (config : CRUDGetOneConfig) :
    Except RPocketError ReqSpec :=
  match join base_url (base_path ++ "/" ++ config.id) with
  | none => .error .urlError
  | some u =>
    .ok { method := .get, url := u,
          headers := [("Content-Type", "application/json")],
          query := config.query_params,
          body := none }

/-- `CRUDMutateConfig<T>` from `src/service/crud.rs` lines 36-44: `id` and
`query_params` carry `#[serde(skip)]`, `body` carries `#[serde(flatten)]`. -/
structure CRUDMutateConfig (B : Type) where
  id : Option String
  body : B
  query_params : List (String × String)

/-- Derived `Serialize` for `CRUDMutateConfig<B>`: with `id` and
`query_params` skipped and `body` flattened, the config serializes to exactly
the body's own serialization as an object.  `encodeB` gives the body's field
list (`B: Serialize` producing a JSON map, as `flatten` requires). -/
def CRUDMutateConfig.toJson {B : Type} (encodeB : B → List (String × Json))
    (config : CRUDMutateConfig B) : Json :=
  .obj (encodeB config.body)

/-- `CRUDService::mutate` (`src/service/crud.rs` lines 123-148) up to the
dispatch: join the bare base path first; then, when `config.id` is present,
switch the method to PATCH and re-join `base_path/{id}`; the body is the
serialized config (`.json(&config)`) and the query pairs are passed
separately. -/
def CRUDService.mutate_request {B : Type} (encodeB : B → List (String × Json))
    (join : String → String → Option String) (base_url base_path : String)
    (config : CRUDMutateConfig B) : Except RPocketError ReqSpec :=
  match join base_url base_path with
  | none => .error .urlError
  | some u0 =>
    match config.id with
    | none =>
      .ok { method := .post, url := u0,
            headers := [("Content-Type", "application/json")],
            query := config.query_params,
            body := some (CRUDMutateConfig.toJson encodeB config) }
    | some i =>
      match join base_url (base_path ++ "/" ++ i) with
      | none => .error .urlError
      | some u =>
        .ok { method := .patch, url := u,
              headers := [("Content-Type", "application/json")],
              query := config.query_params,
              body := some (CRUDMutateConfig.toJson encodeB config) }

/-- `RecordMutateConfig<T>` from `src/service/record.rs` lines 64-72 (same
serde attributes as the generic config). -/
structure RecordMutateConfig (B : Type) where
  id : Option String
  body : B
  query_params : List (String × String)

/-- Derived `Serialize` for `RecordMutateConfig<B>`: the flattened body
alone. -/
def RecordMutateConfig.toJson {B : Type} (encodeB : B → List (String × Json))
    (config : RecordMutateConfig B) : Json :=
  .obj (encodeB config.body)

/-- `RecordService::mutate` (`src/service/record.rs` lines 238-271) up to the
dispatch: POST `/api/collections/{collection}/records` when `id` is absent,
PATCH `/api/collections/{collection}/records/{id}` when present. -/
def RecordService.mutate_request {B : Type} (encodeB : B → List (String × Json))
    (join : String → String → Option String) (base_url collection : String)
    (config : RecordMutateConfig B) : Except RPocketError ReqSpec :=
  match join base_url ("/api/collections/" ++ collection ++ "/records") with
  | none => .error .urlError
  | some u0 =>
    match config.id with
    | none =>
      .ok { method := .post, url := u0,
            headers := [("Content-Type", "application/json")],
            query := config.query_params,
            body := some (RecordMutateConfig.toJson encodeB config) }
    | some i =>
      match join base_url ("/api/collections/" ++ collection ++ "/records/" ++ i) with
      | none => .error .urlError
      | some u =>
        .ok { method := .patch, url := u,
              headers := [("Content-Type", "application/json")],
              query := config.query_params,
              body := some (RecordMutateConfig.toJson encodeB config) }

/-- `RecordAuthResponse<T>` from `src/service/record.rs` (instantiated at
`T = Record`, as `save_auth_response` does): `{token, record, meta}` with
camelCase renaming and `meta: Option<HashMap<String, Value>>`. -/
structure RecordAuthResponse where
  token : String
  record : Record
  meta : Option (List (String × Json))
deriving DecidableEq

/-- Derived `Serialize` for `RecordAuthResponse<Record>`. -/
def RecordAuthResponse.toJson (r : RecordAuthResponse) : Json :=
  .obj [("token", .str r.token), ("record", r.record.toJson),
        ("meta", match r.meta with | none => .null | some m => .obj m)]

/-- Derived `Deserialize` for `RecordAuthResponse<Record>` (no flatten):
named fields parsed where they occur, repeated names error, unknown fields
are ignored; `token` and `record` are required, a missing `meta` is
`None`. -/
def RecordAuthResponse.fromJson : Json → Option RecordAuthResponse
  | .obj fields => go fields none none false none
  | _ => none
where
  go : List (String × Json) → Option String → Option Record → Bool →
      Option (List (String × Json)) → Option RecordAuthResponse
    | [], t?, r?, _, m =>
      match t? with
      | none => none
      | some t =>
        match r? with
        | none => none
        | some r => some ⟨t, r, m⟩
    | (k, v) :: rest, t?, r?, mSeen, m =>
      if k = "token" then
        if t?.isSome then none
        else
          match v.asStr with
          | some s => go rest (some s) r? mSeen m
          | none => none
      else if k = "record" then
        if r?.isSome then none
        else
          match Record.fromJson v with
          | some r => go rest t? (some r) mSeen m
          | none => none
      else if k = "meta" then
        if mSeen then none
        else
          match v with
          | .null => go rest t? r? true none
          | .obj mm => go rest t? r? true (some mm)
          | _ => none
      else go rest t? r? mSeen m

/-- `AdminAuthResponse` from `src/service/admin.rs`: `{token, admin}` plus a
flattened `extra: HashMap<String, Value>` collecting every other field. -/
structure AdminAuthResponse where
  token : String
  admin : Admin
  extra : List (String × Json)
deriving DecidableEq

/-- Derived `Serialize` for `AdminAuthResponse`: `token`, `admin`, then the
flattened extra entries. -/
def AdminAuthResponse.toJson (r : AdminAuthResponse) : Json :=
  .obj ([("token", .str r.token), ("admin", r.admin.toJson)] ++ r.extra)

/-- Derived `Deserialize` for `AdminAuthResponse`: named `token` and `admin`
parsed where they occur (repeated names error); every other entry is
collected, in order, into the flattened `extra` map. -/
def AdminAuthResponse.fromJson : Json → Option AdminAuthResponse
  | .obj fields => go fields none none []
  | _ => none
where
  go : List (String × Json) → Option String → Option Admin → List (String × Json) →
      Option AdminAuthResponse
    | [], t?, a?, buf =>
      match t? with
      | none => none
      | some t =>
        match a? with
        | none => none
        | some a => some ⟨t, a, buf⟩
    | (k, v) :: rest, t?, a?, buf =>
      if k = "token" then
        if t?.isSome then none
        else
          match v.asStr with
          | some s => go rest (some s) a? buf
          | none => none
      else if k = "admin" then
        if a?.isSome then none
        else
          match Admin.fromJson v with
          | some a => go rest t? (some a) buf
          | none => none
      else go rest t? a? (buf ++ [(k, v)])

/-- `RecordService::save_auth_response` (`src/service/record.rs` lines
362-393): deserialize the response body as `RecordAuthResponse<Record>`
(failure is the `reqwest` JSON error, `RequestError`), save the token and the
`AuthPayload::User` identity through the auth state, then re-serialize the
response and deserialize it into the caller's type `T` (`serde_json`
round trip; a failure there is `SerdeError`).  `decodeT` models
`serde_json::from_value::<T>`.  The store state after a failed save is
whatever the save left behind. -/
def RecordService.save_auth_response {σ T : Type} (S : Storage σ)
    (token_key user_or_admin_key : String) (decodeT : Json → Option T) (body : Json)
    (st : σ) : Except RPocketError T × σ :=
  match RecordAuthResponse.fromJson body with
  | none => (.error .requestError, st)
  | some ar =>
    match AuthStorage.save S token_key user_or_admin_key st ar.token (.user ar.record) with
    | (.error e, st') => (.error e, st')
    | (.ok _, st') =>
      match decodeT ar.toJson with
      | some t => (.ok t, st')
      | none => (.error .serdeError, st')

/-- `AdminService::save_auth_response` (`src/service/admin.rs` lines
118-149): as the record version, but the body is an `AdminAuthResponse` and
the identity saved is `AuthPayload::Admin`. -/
def AdminService.save_auth_response {σ T : Type} (S : Storage σ)
    (token_key user_or_admin_key : String) (decodeT : Json → Option T) (body : Json)
    (st : σ) : Except RPocketError T × σ :=
  match AdminAuthResponse.fromJson body with
  | none => (.error .requestError, st)
  | some ar =>
    match AuthStorage.save S token_key user_or_admin_key st ar.token (.admin ar.admin) with
    | (.error e, st') => (.error e, st')
    | (.ok _, st') =>
      match decodeT ar.toJson with
      | some t => (.ok t, st')
      | none => (.error .serdeError, st')

/-- The shared post-send tail of the three record auth operations
(`src/service/record.rs` lines 417-426, 451-460, 485-494): a send error
propagates with the store untouched; otherwise, unless `without_saving` is
set, the response is routed through `save_auth_response`; with
`without_saving` the body is decoded directly as `T` (`response.json::<T>`,
failure is `RequestError`) and the store is not touched. -/
def RecordService.authResponseHandler {σ T : Type} (S : Storage σ)
    (token_key user_or_admin_key : String) (decodeT : Json → Option T)
    (without_saving : Bool) (sendResult : Except RPocketError HttpResponse) (st : σ) :
    Except RPocketError T × σ :=
  match sendResult with
  | .error e => (.error e, st)
  | .ok resp =>
    if !without_saving then
      RecordService.save_auth_response S token_key user_or_admin_key decodeT resp.body st
    else
      match decodeT resp.body with
      | some t => (.ok t, st)
      | none => (.error .requestError, st)

/-- The shared post-send tail of the two admin auth operations
(`src/service/admin.rs` lines 176-183, 211-218). -/
def AdminService.authResponseHandler {σ T : Type} (S : Storage σ)
    (token_key user_or_admin_key : String) (decodeT : Json → Option T)
    (without_saving : Bool) (sendResult : Except RPocketError HttpResponse) (st : σ) :
    Except RPocketError T × σ :=
  match sendResult with
  | .error e => (.error e, st)
  | .ok resp =>
    if !without_saving then
      AdminService.save_auth_response S token_key user_or_admin_key decodeT resp.body st
    else
      match decodeT resp.body with
      | some t => (.ok t, st)
      | none => (.error .requestError, st)

/-- `RecordAuthWithPasswordConfig<T>` from `src/service/record.rs`:
`identity`, `password`, flattened `body`; `query_params` and
`without_saving` are `#[serde(skip)]`. -/
structure RecordAuthWithPasswordConfig (B : Type) where
  identity : String
  password : String
  body : B
  query_params : List (String × String)
  without_saving : Bool

/-- Derived `Serialize` for `RecordAuthWithPasswordConfig<B>`. -/
def RecordAuthWithPasswordConfig.toJson {B : Type} (encodeB : B → List (String × Json))
    (c : RecordAuthWithPasswordConfig B) : Json :=
  .obj ([("identity", .str c.identity), ("password", .str c.password)] ++ encodeB c.body)

/-- `RecordAuthWithOAuth2Config<T>` from `src/service/record.rs`. -/
structure RecordAuthWithOAuth2Config (B : Type) where
  provider : String
  code : String
  code_verifier : String
  redirect_url : String
  body : B
  query_params : List (String × String)
  without_saving : Bool

/-- Derived `Serialize` for `RecordAuthWithOAuth2Config<B>` (the renamed
`codeVerifier`/`redirectUrl` keys, then the flattened body). -/
def RecordAuthWithOAuth2Config.toJson {B : Type} (encodeB : B → List (String × Json))
    (c : RecordAuthWithOAuth2Config B) : Json :=
  .obj ([("provider", .str c.provider), ("code", .str c.code),
         ("codeVerifier", .str c.code_verifier), ("redirectUrl", .str c.redirect_url)]
        ++ encodeB c.body)

/-- `RecordAuthRefreshConfig<T>` from `src/service/record.rs`. -/
structure RecordAuthRefreshConfig (B : Type) where
  body : B
  query_params : List (String × String)
  without_saving : Bool

/-- Derived `Serialize` for `RecordAuthRefreshConfig<B>`: the flattened body
alone. -/
def RecordAuthRefreshConfig.toJson {B : Type} (encodeB : B → List (String × Json))
    (c : RecordAuthRefreshConfig B) : Json :=
  .obj (encodeB c.body)

/-- `AdminAuthWithPasswordConfig<T>` from `src/service/admin.rs`. -/
structure AdminAuthWithPasswordConfig (B : Type) where
  identity : String
  password : String
  body : B
  query_params : List (String × String)
  without_saving : Bool

/-- Derived `Serialize` for `AdminAuthWithPasswordConfig<B>`. -/
def AdminAuthWithPasswordConfig.toJson {B : Type} (encodeB : B → List (String × Json))
    (c : AdminAuthWithPasswordConfig B) : Json :=
  .obj ([("identity", .str c.identity), ("password", .str c.password)] ++ encodeB c.body)

/-- `AdminAuthRefreshConfig<T>` from `src/service/admin.rs`. -/
structure AdminAuthRefreshConfig (B : Type) where
  body : B
  query_params : List (String × String)
  without_saving : Bool

/-- Derived `Serialize` for `AdminAuthRefreshConfig<B>`. -/
def AdminAuthRefreshConfig.toJson {B : Type} (encodeB : B → List (String × Json))
    (c : AdminAuthRefreshConfig B) : Json :=
  .obj (encodeB c.body)

/-- `RecordService::auth_with_password` (`src/service/record.rs` lines
397-427): POST `/api/collections/{collection}/auth-with-password` with the
serialized config as JSON body (this snapshot passes no query parameters on
the record auth endpoints), dispatched through `send_request`, then the
shared save-or-decode tail.  `transport` is the layered client, `join` the
URL joiner, `S`/`st` the auth state's backing store. -/
def RecordService.auth_with_password {σ T B : Type} (encodeB : B → List (String × Json))
    (decodeT : Json → Option T) (join : String → String → Option String) (lang : String)
    (S : Storage σ) (token_key user_or_admin_key : String)
    (transport : ReqSpec → Except RPocketError HttpResponse) (base_url collection : String)
    (config : RecordAuthWithPasswordConfig B) (st : σ) : Except RPocketError T × σ :=
  match join base_url ("/api/collections/" ++ collection ++ "/auth-with-password") with
  | none => (.error .urlError, st)
  | some u =>
    let req : ReqSpec :=
      { method := .post, url := u, headers := [("Content-Type", "application/json")],
        query := [], body := some (config.toJson encodeB) }
    RecordService.authResponseHandler S token_key user_or_admin_key decodeT
      config.without_saving (PocketBase.send_request lang S token_key st transport req) st

/-- `RecordService::auth_with_oauth2` (`src/service/record.rs` lines
431-461). -/
def RecordService.auth_with_oauth2 {σ T B : Type} (encodeB : B → List (String × Json))
    (decodeT : Json → Option T) (join : String → String → Option String) (lang : String)
    (S : Storage σ) (token_key user_or_admin_key : String)
    (transport : ReqSpec → Except RPocketError HttpResponse) (base_url collection : String)
    (config : RecordAuthWithOAuth2Config B) (st : σ) : Except RPocketError T × σ :=
  match join base_url ("/api/collections/" ++ collection ++ "/auth-with-oauth2") with
  | none => (.error .urlError, st)
  | some u =>
    let req : ReqSpec :=
      { method := .post, url := u, headers := [("Content-Type", "application/json")],
        query := [], body := some (config.toJson encodeB) }
    RecordService.authResponseHandler S token_key user_or_admin_key decodeT
      config.without_saving (PocketBase.send_request lang S token_key st transport req) st

/-- `RecordService::auth_refresh` (`src/service/record.rs` lines 465-495). -/
def RecordService.auth_refresh {σ T B : Type} (encodeB : B → List (String × Json))
    (decodeT : Json → Option T) (join : String → String → Option String) (lang : String)
    (S : Storage σ) (token_key user_or_admin_key : String)
    (transport : ReqSpec → Except RPocketError HttpResponse) (base_url collection : String)
    (config : RecordAuthRefreshConfig B) (st : σ) : Except RPocketError T × σ :=
  match join base_url ("/api/collections/" ++ collection ++ "/auth-refresh") with
  | none => (.error .urlError, st)
  | some u =>
    let req : ReqSpec :=
      { method := .post, url := u, headers := [("Content-Type", "application/json")],
        query := [], body := some (config.toJson encodeB) }
    RecordService.authResponseHandler S token_key user_or_admin_key decodeT
      config.without_saving (PocketBase.send_request lang S token_key st transport req) st

/-- `AdminService::auth_with_password` (`src/service/admin.rs` lines
153-184): POST `/api/admins/auth-with-password` with the serialized config
as body and the caller's query pairs attached. -/
def AdminService.auth_with_password {σ T B : Type} (encodeB : B → List (String × Json))
    (decodeT : Json → Option T) (join : String → String → Option String) (lang : String)
    (S : Storage σ) (token_key user_or_admin_key : String)
    (transport : ReqSpec → Except RPocketError HttpResponse) (base_url : String)
    (config : AdminAuthWithPasswordConfig B) (st : σ) : Except RPocketError T × σ :=
  match join base_url "/api/admins/auth-with-password" with
  | none => (.error .urlError, st)
  | some u =>
    let req : ReqSpec :=
      { method := .post, url := u, headers := [("Content-Type", "application/json")],
        query := config.query_params, body := some (config.toJson encodeB) }
    AdminService.authResponseHandler S token_key user_or_admin_key decodeT
      config.without_saving (PocketBase.send_request lang S token_key st transport req) st

/-- `AdminService::auth_refresh` (`src/service/admin.rs` lines 188-219). -/
def AdminService.auth_refresh {σ T B : Type} (encodeB : B → List (String × Json))
    (decodeT : Json → Option T) (join : String → String → Option String) (lang : String)
    (S : Storage σ) (token_key user_or_admin_key : String)
    (transport : ReqSpec → Except RPocketError HttpResponse) (base_url : String)
    (config : AdminAuthRefreshConfig B) (st : σ) : Except RPocketError T × σ :=
  match join base_url "/api/admins/auth-refresh" with
  | none => (.error .urlError, st)
  | some u =>
    let req : ReqSpec :=
      { method := .post, url := u, headers := [("Content-Type", "application/json")],
        query := config.query_params, body := some (config.toJson encodeB) }
    AdminService.authResponseHandler S token_key user_or_admin_key decodeT
      config.without_saving (PocketBase.send_request lang S token_key st transport req) st

/-- A `tower` service in this pipeline: what `call` does to a dispatched
request.  Readiness is not modelled: the terminal executor's `poll_ready` is
the constant `Ready(Ok(()))` (`src/rpocket.rs` line 154). -/
def Service : Type := ReqSpec → Except RPocketError HttpResponse

/-- One middleware layer, `tower::Layer`: a service transformer. -/
def MwLayer : Type := Service → Service

/-- The builder's layer slot: `tower::layer::util::Identity` initially, and
`Stack::new(new_layer, previous_slot)` after each `PocketBaseBuilder::layer`
call (`src/rpocket.rs` lines 88-95).  In `tower`,
`Stack{inner, outer}.layer(s)` is `outer.layer(inner.layer(s))`, with the
newly registered layer in the `inner` position. -/
inductive LayerStack where
  | identity
  | stack (inner : MwLayer) (outer : LayerStack)

/-- `tower::Layer::layer` for the builder's slot. -/
def LayerStack.layer : LayerStack → Service → Service
  | .identity, s => s
  | .stack inner outer, s => outer.layer (inner s)

/-- The builder state of `PocketBaseBuilder` (`src/rpocket.rs` lines 43-95):
language, base URL and the layer slot.  The auth-state handle does not
interact with layering and is threaded separately in this development. -/
structure PocketBaseBuilder where
  lang : String
  baseUrl : String
  layerStack : LayerStack

/-- `PocketBaseBuilder::new` (`src/rpocket.rs` lines 51-63): the default
base URL parses, so no panic arises here. -/
def PocketBaseBuilder.new : PocketBaseBuilder :=
  { lang := "en", baseUrl := "https://api.pocketbase.io", layerStack := .identity }

/-- `PocketBaseBuilder::layer` (`src/rpocket.rs` lines 88-95): push the new
layer onto the slot as the `Stack`'s `inner`. -/
def PocketBaseBuilder.layer (b : PocketBaseBuilder) (t : MwLayer) : PocketBaseBuilder :=
  { b with layerStack := .stack t b.layerStack }

/-- `PocketBaseBuilder::build` (`src/rpocket.rs` lines 98-131): the dispatch
client is the layer slot applied to the terminal `PocketBaseService`
transport executor. -/
def PocketBaseBuilder.build (b : PocketBaseBuilder) (terminal : Service) : Service :=
  b.layerStack.layer terminal

/-- `PocketBaseBuilder::layer` iterated over a list, in registration
order. -/
def PocketBaseBuilder.registerLayers (b : PocketBaseBuilder) (ts : List MwLayer) :
    PocketBaseBuilder :=
  ts.foldl PocketBaseBuilder.layer b

/-- Outcome of a Rust expression that may panic (an `unwrap` of an `Err`). -/
inductive PanicOr (α : Type) where
  | panicked
  | ok (a : α)

/-- `PocketBaseBuilder::base_url` (`src/rpocket.rs` lines 73-76):
`url::Url::parse(base_url).unwrap()` — `parse` abstracts the external url
crate's parser; when it rejects the string the `unwrap` panics.  No
`RPocketError` value is produced on this path (the return type has no error
channel). -/
def PocketBaseBuilder.base_url (parse : String → Option String) (b : PocketBaseBuilder)
    (s : String) : PanicOr PocketBaseBuilder :=
  match parse s with
  | some u => .ok { b with baseUrl := u }
  | none => .panicked

/-- `PocketBase::new` (`src/rpocket.rs` lines 204-214):
`PocketBaseBuilder::new().base_url(s).lang(lang).build()` — the `lang` and
`build` steps are total, so the panic behavior of `new` is decided by the
`base_url` step; the resulting client configuration is the builder state. -/
def PocketBase.new (parse : String → Option String) (base_url lang : String) :
    PanicOr PocketBaseBuilder :=
  match PocketBaseBuilder.base_url parse PocketBaseBuilder.new base_url with
  | .panicked => .panicked
  | .ok b => .ok { b with lang := lang }

/-- The field list of a record's serialization (`Record::serialize` always
produces a JSON map, as `#[serde(flatten)]` requires of a body). -/
def Record.toJsonFields (r : Record) : List (String × Json) :=
  match r.toJson with
  | .obj fs => fs
  | _ => []

/-- The record fixture of `test_record_mutate_create`/`test_record_mutate_update`
(`src/service/crud.rs`), whose serialized body the repository's own mock
matches — including its `id` field. -/
def testRecord : Record :=
  .mk ⟨"d08dfc4f4d84419", "2022-06-25 11:03:45.876", "2022-06-25 11:03:45.876"⟩
      "a98f514eb05f454" "posts" [("title", .str "test2")] none

/-- The JSON keys of `Record`'s fixed schema: the flattened base fields and
the named fields.  A dynamic `data` entry under one of these keys collides
with a fixed field during (de)serialization. -/
def reservedRecordKeys : List String :=
  ["id", "created", "updated", "collectionId", "collectionName", "expand"]

mutual
/-- A record that is the image of a Rust value fit for a lossless serde
round trip: the dynamic field map has pairwise-distinct keys (the `HashMap`
invariant), none of which collides with the fixed schema's JSON keys, and
the requirement holds hereditarily through `expand`. -/
def Record.wf : Record → Bool
  | .mk _ _ _ data expand =>
    keysNodup data && reservedRecordKeys.all (fun k => !hasKey data k) &&
    expandOptWf expand
def expandOptWf : Option (List (String × ExpandValue)) → Bool
  | none => true
  | some m => keysNodup m && expandEntriesWf m
def expandEntriesWf : List (String × ExpandValue) → Bool
  | [] => true
  | (_, v) :: rest => ExpandValue.wf v && expandEntriesWf rest
def ExpandValue.wf : ExpandValue → Bool
  | .record r => Record.wf r
  | .listRecords rs => recordsWf rs
def recordsWf : List Record → Bool
  | [] => true
  | r :: rs => Record.wf r && recordsWf rs
end

/-- The record of the C7 collision counterexample: its dynamic field map
carries a `collectionId` key, so its serialization holds that key twice and
deserialization rejects it as a duplicate field. -/
def badRecord : Record :=
  .mk ⟨"a", "b", "c"⟩ "cid" "cname" [("collectionId", .str "x")] none

/-- A header-tagging middleware (the shape of the repository's own
`TestService` layer in `src/rpocket.rs`, which appends an `X-Test` header
before calling onward): used to observe the order in which registered layers
see a request. -/
def tagLayer (name : String) : MwLayer :=
  fun s req => s { req with headers := req.headers ++ [("X-Tag", name)] }

/-- A terminal service echoing the request's headers in the response body:
stands in for the transport executor when observing middleware order. -/
def echoService : Service :=
  fun req => .ok ⟨200, .obj (req.headers.map (fun p => (p.1, .str p.2)))⟩

/-- The store state after a completed record-auth save: the token under
`TOKEN_KEY`, then the serialized `AuthPayload::User` under
`USER_OR_ADMIN_KEY`. -/
def recordSavedState (st : MemState) (ar : RecordAuthResponse) : MemState :=
  memSet (memSet st TOKEN_KEY (.str ar.token)) USER_OR_ADMIN_KEY
    (.json (AuthPayload.user ar.record).toJson)

/-- The store state after a completed admin-auth save. -/
def adminSavedState (st : MemState) (ar : AdminAuthResponse) : MemState :=
  memSet (memSet st TOKEN_KEY (.str ar.token)) USER_OR_ADMIN_KEY
    (.json (AuthPayload.admin ar.admin).toJson)

/-- Outcome contract of one record-service authentication call started from
store `st`, whose URL join gave `joinResult` and whose network dispatch for a
joined URL `u` is `sendOf u` (the full send pipeline applied to the request
the operation builds from `u`): with `without_saving` the store is never
mutated and a success returns the direct decode of the dispatched response's
body; without it, the store either stays as it was (the call failed before
the save) or holds the full token-plus-identity save of the auth response
parsed from the body of the response the dispatch returned; and a successful
call returns the decoded payload of that same parsed auth response, with the
token readable from the store and the identity key holding the serialized
`AuthPayload::User` payload. -/
def RecordAuthOutcomeSpec {T : Type} (without_saving : Bool) (st : MemState)
    (joinResult : Option String) (sendOf : String → Except RPocketError HttpResponse)
    (decodeT : Json → Option T) (out : Except RPocketError T × MemState) : Prop :=
  (without_saving = true →
    out.2 = st ∧
    ∀ t : T, out.1 = .ok t → ∃ u resp, joinResult = some u ∧ sendOf u = .ok resp ∧
      decodeT resp.body = some t) ∧
  (without_saving = false →
    (out.2 = st ∨ ∃ u resp ar, joinResult = some u ∧ sendOf u = .ok resp ∧
      RecordAuthResponse.fromJson resp.body = some ar ∧ out.2 = recordSavedState st ar) ∧
    (∀ t : T, out.1 = .ok t → ∃ u resp ar, joinResult = some u ∧ sendOf u = .ok resp ∧
      RecordAuthResponse.fromJson resp.body = some ar ∧
      out.2 = recordSavedState st ar ∧
      decodeT ar.toJson = some t ∧
      AuthStorage.token memStorage TOKEN_KEY out.2 = .ok (some ar.token) ∧
      memStorage.get out.2 USER_OR_ADMIN_KEY =
        .ok (some (.json (AuthPayload.user ar.record).toJson))))

/-- Outcome contract of one admin-service authentication call (as the record
version, with the admin auth response and the `AuthPayload::Admin`
identity). -/
def AdminAuthOutcomeSpec {T : Type} (without_saving : Bool) (st : MemState)
    (joinResult : Option String) (sendOf : String → Except RPocketError HttpResponse)
    (decodeT : Json → Option T) (out : Except RPocketError T × MemState) : Prop :=
  (without_saving = true →
    out.2 = st ∧
    ∀ t : T, out.1 = .ok t → ∃ u resp, joinResult = some u ∧ sendOf u = .ok resp ∧
      decodeT resp.body = some t) ∧
  (without_saving = false →
    (out.2 = st ∨ ∃ u resp ar, joinResult = some u ∧ sendOf u = .ok resp ∧
      AdminAuthResponse.fromJson resp.body = some ar ∧ out.2 = adminSavedState st ar) ∧
    (∀ t : T, out.1 = .ok t → ∃ u resp ar, joinResult = some u ∧ sendOf u = .ok resp ∧
      AdminAuthResponse.fromJson resp.body = some ar ∧
      out.2 = adminSavedState st ar ∧
      decodeT ar.toJson = some t ∧
      AuthStorage.token memStorage TOKEN_KEY out.2 = .ok (some ar.token) ∧
      memStorage.get out.2 USER_OR_ADMIN_KEY =
        .ok (some (.json (AuthPayload.admin ar.admin).toJson))))

/-! ## Lemmas about the in-memory storage backend -/

theorem memGet_memSet_self (st : MemState) (k : String) (v : StoredValue) :
    memGet (memSet st k v) k = some v := by
  induction st with
  | nil => simp [memGet, memSet, lookupAssoc]
  | cons hd tl ih =>
    obtain ⟨k', w⟩ := hd
    by_cases h : k' = k
    · simp [memGet, memSet, lookupAssoc, h]
    · simpa [memGet, memSet, lookupAssoc, h] using ih

theorem memGet_memSet_ne (st : MemState) (k k' : String) (v : StoredValue) (h : k' ≠ k) :
    memGet (memSet st k v) k' = memGet st k' := by
  induction st with
  | nil => simp [memGet, memSet, lookupAssoc, Ne.symm h]
  | cons hd tl ih =>
    obtain ⟨k0, w⟩ := hd
    by_cases h0 : k0 = k
    · subst h0
      simp [memGet, memSet, lookupAssoc, Ne.symm h, h]
    · by_cases h1 : k0 = k'
      · subst h1
        simp [memGet, memSet, lookupAssoc, h0, h]
      · simpa [memGet, memSet, lookupAssoc, h0, h1] using ih

theorem memGet_memDelete_self (st : MemState) (k : String) :
    memGet (memDelete st k) k = none := by
  induction st with
  | nil => rfl
  | cons hd tl ih =>
    obtain ⟨k', w⟩ := hd
    by_cases h : k' = k
    · simpa [memDelete, h] using ih
    · simpa [memGet, memDelete, lookupAssoc, h] using ih

theorem memDelete_idem (st : MemState) (k : String) :
    memDelete (memDelete st k) k = memDelete st k := by
  simp [memDelete, List.filter_filter]

theorem memDelete_comm (st : MemState) (k k' : String) :
    memDelete (memDelete st k) k' = memDelete (memDelete st k') k := by
  simp only [memDelete, List.filter_filter]
  exact List.filter_congr fun x _ => by
    cases h1 : decide (x.1 ≠ k) <;> cases h2 : decide (x.1 ≠ k') <;> simp [h1, h2]

theorem memGet_memDelete_ne (st : MemState) (k k' : String) (h : k' ≠ k) :
    memGet (memDelete st k) k' = memGet st k' := by
  induction st with
  | nil => rfl
  | cons hd tl ih =>
    obtain ⟨k0, w⟩ := hd
    by_cases h0 : k0 = k
    · subst h0
      simpa [memGet, memDelete, lookupAssoc, Ne.symm h] using ih
    · by_cases h1 : k0 = k'
      · subst h1
        simp [memGet, memDelete, lookupAssoc, h0]
      · simpa [memGet, memDelete, lookupAssoc, h0, h1] using ih

/-! ## Claim theorems -/

/-- C8: For every starting state of the Auth State Store (any keys, any
backing map), calling `clear()` twice leaves the store in the same observable
state as calling it once — the token read and the identity lookup both return
`None` — the second `clear()` succeeds without error, and the full store
state after two clears equals the state after one. -/
theorem C8_clear_idempotent (token_key user_or_admin_key : String) (st : MemState) :
    (AuthStateService.clear memStorage token_key user_or_admin_key st).1 = .ok () ∧
    (AuthStateService.clear memStorage token_key user_or_admin_key
      (AuthStateService.clear memStorage token_key user_or_admin_key st).2).1 = .ok () ∧
    (AuthStateService.clear memStorage token_key user_or_admin_key
      (AuthStateService.clear memStorage token_key user_or_admin_key st).2).2 =
      (AuthStateService.clear memStorage token_key user_or_admin_key st).2 ∧
    AuthStateService.get_token memStorage token_key
      (AuthStateService.clear memStorage token_key user_or_admin_key st).2 = .ok none ∧
    AuthStateService.get_user_or_admin memStorage user_or_admin_key
      (AuthStateService.clear memStorage token_key user_or_admin_key st).2 = .ok none := by
  refine ⟨rfl, rfl, ?_, ?_, ?_⟩
  · show memDelete (memDelete (memDelete (memDelete st token_key) user_or_admin_key)
        token_key) user_or_admin_key = memDelete (memDelete st token_key) user_or_admin_key
    simp only [memDelete, List.filter_filter]
    exact List.filter_congr fun x _ => by
      cases h1 : decide (x.1 ≠ token_key) <;> cases h2 : decide (x.1 ≠ user_or_admin_key) <;>
        simp [h1, h2]
  · show AuthStateService.get_token memStorage token_key
      (memDelete (memDelete st token_key) user_or_admin_key) = .ok none
    by_cases h : token_key = user_or_admin_key
    · subst h
      simp [AuthStateService.get_token, memStorage, memGet_memDelete_self]
    · simp [AuthStateService.get_token, memStorage,
        memGet_memDelete_ne _ _ _ h, memGet_memDelete_self]
  · show AuthStateService.get_user_or_admin memStorage user_or_admin_key
      (memDelete (memDelete st token_key) user_or_admin_key) = .ok none
    simp [AuthStateService.get_user_or_admin, memStorage, memGet_memDelete_self]

/-- C6: `AuthStorage::save` performs the token write first and the identity
write second; in every execution in which the token write succeeds and the
identity write fails, `save` returns the error but the token write is not
rolled back — afterwards the store holds the new token while the identity key
is unchanged.  Stated over a backend whose write to the identity key fails
(the trait's error path), together with the write-order fact for an arbitrary
backend. -/
theorem C6_save_no_rollback (st : MemState) (tk uk token : String) (payload : AuthPayload)
    (hne : tk ≠ uk) :
    AuthStorage.save (faultyStorage [uk]) tk uk st token payload =
      (.error .mutexError, memSet st tk (.str token)) ∧
    AuthStorage.token (faultyStorage [uk]) tk (memSet st tk (.str token)) =
      .ok (some token) ∧
    (faultyStorage [uk]).get (memSet st tk (.str token)) uk = (faultyStorage [uk]).get st uk ∧
    (∀ (S : Storage MemState) (st0 st1 : MemState) (e : RPocketError),
      S.set st0 tk (.str token) = .ok st1 →
      S.set st1 uk (.json payload.toJson) = .error e →
      AuthStorage.save S tk uk st0 token payload = (.error e, st1)) := by
  refine ⟨?_, ?_, ?_, ?_⟩
  · simp [AuthStorage.save, faultyStorage, hne]
  · simp [AuthStorage.token, faultyStorage, memGet_memSet_self, StoredValue.asString]
  · simp [faultyStorage, memGet_memSet_ne _ _ _ _ (Ne.symm hne)]
  · intro S st0 st1 e h1 h2
    simp [AuthStorage.save, h1, h2]

/-- Witness for C6 at the default keys, the empty store, token `"tok"` and a
default admin payload. -/
theorem C6_save_no_rollback_witness :
    TOKEN_KEY ≠ USER_OR_ADMIN_KEY ∧
    (AuthStorage.save (faultyStorage [USER_OR_ADMIN_KEY]) TOKEN_KEY USER_OR_ADMIN_KEY []
        "tok" (.admin ⟨⟨"", "", ""⟩, 0, ""⟩) =
      (.error .mutexError, memSet [] TOKEN_KEY (.str "tok")) ∧
    AuthStorage.token (faultyStorage [USER_OR_ADMIN_KEY]) TOKEN_KEY
        (memSet [] TOKEN_KEY (.str "tok")) = .ok (some "tok") ∧
    (faultyStorage [USER_OR_ADMIN_KEY]).get (memSet [] TOKEN_KEY (.str "tok"))
        USER_OR_ADMIN_KEY = (faultyStorage [USER_OR_ADMIN_KEY]).get [] USER_OR_ADMIN_KEY ∧
    (∀ (S : Storage MemState) (st0 st1 : MemState) (e : RPocketError),
      S.set st0 TOKEN_KEY (.str "tok") = .ok st1 →
      S.set st1 USER_OR_ADMIN_KEY (.json (AuthPayload.admin ⟨⟨"", "", ""⟩, 0, ""⟩).toJson) =
        .error e →
      AuthStorage.save S TOKEN_KEY USER_OR_ADMIN_KEY st0 "tok"
        (.admin ⟨⟨"", "", ""⟩, 0, ""⟩) = (.error e, st1))) :=
  ⟨by decide, C6_save_no_rollback [] TOKEN_KEY USER_OR_ADMIN_KEY "tok"
    (.admin ⟨⟨"", "", ""⟩, 0, ""⟩) (by decide)⟩

theorem send_request_const_transport (lang : String) (st : MemState) (req : ReqSpec)
    (resp : HttpResponse) :
    PocketBase.send_request lang memStorage TOKEN_KEY st (fun _ => .ok resp) req =
      handleStatus resp := by
  cases h : memGet st TOKEN_KEY with
  | none => simp [PocketBase.send_request, AuthStorage.token, memStorage, h]
  | some v => simp [PocketBase.send_request, AuthStorage.token, memStorage, h]

/-- C1: For every HTTP response obtained by the client's send operation, the
operation returns `Ok` with the response passed through unparsed if and only
if the status code is in `[200, 300)`; for every status outside that range it
returns the `APIError` variant whose `code`, `message` and `data` fields
equal those parsed from the response body (and never returns `Ok`); and a
2xx response is never surfaced as an error regardless of body content. -/
theorem C1_send_status_classification (lang : String) (st : MemState) (req : ReqSpec)
    (resp : HttpResponse) :
    (PocketBase.send_request lang memStorage TOKEN_KEY st (fun _ => .ok resp) req = .ok resp ↔
      200 ≤ resp.status ∧ resp.status < 300) ∧
    (200 ≤ resp.status ∧ resp.status < 300 →
      PocketBase.send_request lang memStorage TOKEN_KEY st (fun _ => .ok resp) req = .ok resp) ∧
    (∀ e : APIError, ¬(200 ≤ resp.status ∧ resp.status < 300) →
      parseAPIError resp.body = some e →
      PocketBase.send_request lang memStorage TOKEN_KEY st (fun _ => .ok resp) req =
        .error (.apiError e)) ∧
    (¬(200 ≤ resp.status ∧ resp.status < 300) →
      ∀ r : HttpResponse,
        PocketBase.send_request lang memStorage TOKEN_KEY st (fun _ => .ok resp) req ≠ .ok r) := by
  rw [send_request_const_transport]
  by_cases hs : 200 ≤ resp.status ∧ resp.status < 300
  · have hb : isSuccess resp.status = true := by
      simp [isSuccess, hs.1, hs.2]
    refine ⟨by simp [handleStatus, hb, hs], fun _ => by simp [handleStatus, hb],
      fun e h _ => absurd hs h, fun h => absurd hs h⟩
  · have hb : isSuccess resp.status = false := by
      rcases Nat.lt_or_ge resp.status 200 with h | h
      · simp [isSuccess, Nat.not_le.mpr h]
      · have : ¬resp.status < 300 := fun hlt => hs ⟨h, hlt⟩
        simp [isSuccess, this]
    refine ⟨?_, fun h => absurd h hs, fun e _ hp => by simp [handleStatus, hb, hp], ?_⟩
    · constructor
      · intro h
        exfalso
        revert h
        simp only [handleStatus, hb, Bool.not_false, if_true]
        cases parseAPIError resp.body <;> simp
      · intro h
        exact absurd h hs
    · intro _ r
      simp only [handleStatus, hb, Bool.not_false, if_true]
      cases parseAPIError resp.body <;> simp

/-- Witness for C1: a 404 response with the documented error body surfaces as
`ApiError{404, "Not Found", null}`, and a 2xx response with an arbitrary
(non-`APIError`) body passes through unparsed. -/
theorem C1_send_status_classification_witness :
    (¬(200 ≤ (404 : Nat) ∧ (404 : Nat) < 300) ∧
      parseAPIError (.obj [("code", .num 404), ("message", .str "Not Found"),
        ("data", .null)]) = some ⟨404, "Not Found", .null⟩ ∧
      PocketBase.send_request "en" memStorage TOKEN_KEY []
        (fun _ => .ok ⟨404, .obj [("code", .num 404), ("message", .str "Not Found"),
          ("data", .null)]⟩)
        ⟨.get, "http://localhost:8080/", [], [], none⟩ =
        .error (.apiError ⟨404, "Not Found", .null⟩)) ∧
    (200 ≤ (200 : Nat) ∧ (200 : Nat) < 300) ∧
    PocketBase.send_request "en" memStorage TOKEN_KEY []
      (fun _ => .ok ⟨200, .str "not an error body"⟩)
      ⟨.get, "http://localhost:8080/", [], [], none⟩ =
      .ok ⟨200, .str "not an error body"⟩ :=
  ⟨⟨by decide, by decide,
    (C1_send_status_classification "en" []
      ⟨.get, "http://localhost:8080/", [], [], none⟩
      ⟨404, .obj [("code", .num 404), ("message", .str "Not Found"), ("data", .null)]⟩).2.2.1
      ⟨404, "Not Found", .null⟩ (by decide) (by decide)⟩,
   by decide,
   (C1_send_status_classification "en" []
      ⟨.get, "http://localhost:8080/", [], [], none⟩
      ⟨200, .str "not an error body"⟩).2.1 (by decide)⟩

/-- C5: For every `per_page ≥ 1`, `page ≥ 1` and caller-supplied query list,
`get_list` (both the generic engine's and the record service's) issues a GET
request whose query contains exactly `perPage=<per_page>` and `page=<page>`
first, followed by the caller-supplied pairs in their original order, with no
deduplication of duplicate keys (the list is passed to `.query` as-is). -/
theorem C5_get_list_query (join : String → String → Option String)
    (base_url base_path collection u v : String) (per_page page : Int)
    (qp : List (String × String))
    (_h1 : 1 ≤ per_page) (_h2 : 1 ≤ page)
    (hj : join base_url base_path = some u)
    (hr : join base_url ("/api/collections/" ++ collection ++ "/records") = some v) :
    CRUDService.get_list_request join base_url base_path ⟨per_page, page, qp⟩ =
      .ok ⟨.get, u, [("Content-Type", "application/json")],
           ("perPage", toString per_page) :: ("page", toString page) :: qp, none⟩ ∧
    RecordService.get_list_request join base_url collection (some ⟨per_page, page, qp⟩) =
      .ok ⟨.get, v, [("Content-Type", "application/json")],
           ("perPage", toString per_page) :: ("page", toString page) :: qp, none⟩ := by
  constructor
  · simp [CRUDService.get_list_request, hj]
  · simp [RecordService.get_list_request, hr]

/-- Witness for C5 at `per_page = 10`, `page = 1`, a duplicate-keyed caller
query list, and a concatenating joiner. -/
theorem C5_get_list_query_witness :
    1 ≤ (10 : Int) ∧ 1 ≤ (1 : Int) ∧
    CRUDService.get_list_request (fun b p => some (b ++ p)) "http://localhost:8080/"
        "api/collections/test/records" ⟨10, 1, [("filter", "a"), ("filter", "b")]⟩ =
      .ok ⟨.get, "http://localhost:8080/api/collections/test/records",
           [("Content-Type", "application/json")],
           [("perPage", "10"), ("page", "1"), ("filter", "a"), ("filter", "b")], none⟩ ∧
    RecordService.get_list_request (fun b p => some (b ++ p)) "http://localhost:8080"
        "test" (some ⟨10, 1, [("filter", "a"), ("filter", "b")]⟩) =
      .ok ⟨.get, "http://localhost:8080/api/collections/test/records",
           [("Content-Type", "application/json")],
           [("perPage", "10"), ("page", "1"), ("filter", "a"), ("filter", "b")], none⟩ :=
  ⟨by decide, by decide,
    (C5_get_list_query (fun b p => some (b ++ p)) "http://localhost:8080/"
      "api/collections/test/records" "test"
      "http://localhost:8080/api/collections/test/records"
      "http://localhost:8080//api/collections/test/records" 10 1
      [("filter", "a"), ("filter", "b")] (by decide) (by decide) (by decide) (by decide)).1,
    (C5_get_list_query (fun b p => some (b ++ p)) "http://localhost:8080"
      "api/collections/test/records" "test"
      "http://localhost:8080api/collections/test/records"
      "http://localhost:8080/api/collections/test/records" 10 1
      [("filter", "a"), ("filter", "b")] (by decide) (by decide) (by decide) (by decide)).2⟩

/-- C3 counterexample: with `id = None` and the repository's own mutate test
fixture as body (a `Record`, whose flattened serialization the mock server
matches verbatim), the serialized JSON request body does contain an `id`
field — refuting "the `id` field is never present in the serialized JSON
request body" as stated for every body value. -/
theorem C3_mutate_id_in_body_counterexample :
    CRUDService.mutate_request Record.toJsonFields (fun b p => some (b ++ p))
        "http://localhost:8080/" "api/collections/test/records" ⟨none, testRecord, []⟩ =
      .ok ⟨.post, "http://localhost:8080/api/collections/test/records",
           [("Content-Type", "application/json")], [],
           some (.obj [("id", .str "d08dfc4f4d84419"),
             ("created", .str "2022-06-25 11:03:45.876"),
             ("updated", .str "2022-06-25 11:03:45.876"),
             ("collectionId", .str "a98f514eb05f454"),
             ("collectionName", .str "posts"), ("title", .str "test2"),
             ("expand", .null)])⟩ ∧
    hasKey [("id", Json.str "d08dfc4f4d84419"),
      ("created", .str "2022-06-25 11:03:45.876"),
      ("updated", .str "2022-06-25 11:03:45.876"),
      ("collectionId", .str "a98f514eb05f454"),
      ("collectionName", .str "posts"), ("title", .str "test2"),
      ("expand", .null)] "id" = true := by
  constructor
  · simp [CRUDService.mutate_request, CRUDMutateConfig.toJson, Record.toJsonFields,
      testRecord, Record.toJson, BaseModel.toFields, expandFieldToJson]
  · decide

/-- C3 (amended): for every body value and query list, the generic mutate
operation (and the record service's) with `id = None` issues a POST to the
bare base path, and with `id = Some i` a PATCH to `base_path/{i}`; the
serialized JSON request body is exactly the flattened serialization of the
body value, independent of the config's `id` field (which is
`#[serde(skip)]`ped) — the body's own serialization may, however, itself
contain an `id` key. -/
theorem C3_mutate_method_path_body {B : Type} (encodeB : B → List (String × Json))
    (join : String → String → Option String) (base_url base_path collection : String)
    (body : B) (qp : List (String × String)) (i u0 u v0 v : String)
    (hj0 : join base_url base_path = some u0)
    (hj1 : join base_url (base_path ++ "/" ++ i) = some u)
    (hr0 : join base_url ("/api/collections/" ++ collection ++ "/records") = some v0)
    (hr1 : join base_url ("/api/collections/" ++ collection ++ "/records/" ++ i) = some v) :
    (∀ idOpt : Option String,
      CRUDMutateConfig.toJson encodeB ⟨idOpt, body, qp⟩ = .obj (encodeB body) ∧
      RecordMutateConfig.toJson encodeB ⟨idOpt, body, qp⟩ = .obj (encodeB body)) ∧
    CRUDService.mutate_request encodeB join base_url base_path ⟨none, body, qp⟩ =
      .ok ⟨.post, u0, [("Content-Type", "application/json")], qp,
           some (.obj (encodeB body))⟩ ∧
    CRUDService.mutate_request encodeB join base_url base_path ⟨some i, body, qp⟩ =
      .ok ⟨.patch, u, [("Content-Type", "application/json")], qp,
           some (.obj (encodeB body))⟩ ∧
    RecordService.mutate_request encodeB join base_url collection ⟨none, body, qp⟩ =
      .ok ⟨.post, v0, [("Content-Type", "application/json")], qp,
           some (.obj (encodeB body))⟩ ∧
    RecordService.mutate_request encodeB join base_url collection ⟨some i, body, qp⟩ =
      .ok ⟨.patch, v, [("Content-Type", "application/json")], qp,
           some (.obj (encodeB body))⟩ := by
  refine ⟨fun idOpt => ⟨rfl, rfl⟩, ?_, ?_, ?_, ?_⟩
  · simp [CRUDService.mutate_request, CRUDMutateConfig.toJson, hj0]
  · simp [CRUDService.mutate_request, CRUDMutateConfig.toJson, hj0, hj1]
  · simp [RecordService.mutate_request, RecordMutateConfig.toJson, hr0]
  · simp [RecordService.mutate_request, RecordMutateConfig.toJson, hr0, hr1]

/-- Witness for C3 (amended) at a one-field body, a concrete id and a
concatenating joiner. -/
theorem C3_mutate_method_path_body_witness :
    CRUDService.mutate_request (fun b => b) (fun b p => some (b ++ p)) "http://h/"
        "api/collections/test/records" ⟨none, [("title", Json.str "x")], [("q", "1")]⟩ =
      .ok ⟨.post, "http://h/api/collections/test/records",
           [("Content-Type", "application/json")], [("q", "1")],
           some (.obj [("title", .str "x")])⟩ ∧
    CRUDService.mutate_request (fun b => b) (fun b p => some (b ++ p)) "http://h/"
        "api/collections/test/records" ⟨some "r1", [("title", Json.str "x")], [("q", "1")]⟩ =
      .ok ⟨.patch, "http://h/api/collections/test/records/r1",
           [("Content-Type", "application/json")], [("q", "1")],
           some (.obj [("title", .str "x")])⟩ :=
  ⟨(C3_mutate_method_path_body (fun b => b) (fun b p => some (b ++ p)) "http://h/"
      "api/collections/test/records" "test" [("title", Json.str "x")] [("q", "1")] "r1"
      "http://h/api/collections/test/records" "http://h/api/collections/test/records/r1"
      "http://h//api/collections/test/records" "http://h//api/collections/test/records/r1"
      (by decide) (by decide) (by decide) (by decide)).2.1,
   (C3_mutate_method_path_body (fun b => b) (fun b p => some (b ++ p)) "http://h/"
      "api/collections/test/records" "test" [("title", Json.str "x")] [("q", "1")] "r1"
      "http://h/api/collections/test/records" "http://h/api/collections/test/records/r1"
      "http://h//api/collections/test/records" "http://h//api/collections/test/records/r1"
      (by decide) (by decide) (by decide) (by decide)).2.2.1⟩

/-- C4 counterexample: registering the tagging layers A then B and building,
the dispatched request reaches the terminal with the tags in order A, B — the
first-registered layer saw the request first, i.e. it is the outermost one.
Wrapping with the last-registered layer outermost (B outside A) would tag in
order B, A, a different response — refuting "the last-registered layer is the
outermost one". -/
theorem C4_last_registered_not_outermost_counterexample :
    (PocketBaseBuilder.new.registerLayers [tagLayer "A", tagLayer "B"]).build echoService
        ⟨.get, "u", [], [], none⟩ =
      .ok ⟨200, .obj [("X-Tag", .str "A"), ("X-Tag", .str "B")]⟩ ∧
    tagLayer "B" (tagLayer "A" echoService) ⟨.get, "u", [], [], none⟩ =
      .ok ⟨200, .obj [("X-Tag", .str "B"), ("X-Tag", .str "A")]⟩ ∧
    Json.obj [("X-Tag", .str "A"), ("X-Tag", .str "B")] ≠
      Json.obj [("X-Tag", .str "B"), ("X-Tag", .str "A")] := by
  refine ⟨?_, ?_, by decide⟩
  · simp [PocketBaseBuilder.registerLayers, PocketBaseBuilder.layer, PocketBaseBuilder.new,
      PocketBaseBuilder.build, LayerStack.layer, tagLayer, echoService]
  · simp [tagLayer, echoService]

/-- C4 (amended): for every sequence of middleware layers registered through
`PocketBaseBuilder::layer`, the client produced by `build()` applies the
layers wrapping outward with the FIRST-registered layer outermost — on every
dispatch the first-registered layer sees the request first and the response
last, each later-registered layer wraps closer to the executor, and the
Transport Executor is innermost: the built service is
`t1 (t2 (… (tn terminal)))` for registration order `t1 … tn`. -/
theorem C4_first_registered_outermost (b : PocketBaseBuilder) (ts : List MwLayer)
    (terminal : Service) :
    (b.registerLayers ts).build terminal = b.build (ts.foldr (fun t s => t s) terminal) := by
  induction ts generalizing b with
  | nil => rfl
  | cons t ts ih =>
    show ((b.layer t).registerLayers ts).build terminal = _
    rw [ih (b.layer t)]
    rfl

/-- C10: `PocketBaseBuilder::base_url` (and therefore `PocketBase::new`)
parses the given base-URL string with `unwrap()`, so for every input string
the URL parser rejects the builder panics — it never returns the library's
`RPocketError::UrlError` (the builder's return type has no error channel);
URL construction errors are surfaced as `Result` values only later, when a
resource path is joined to the base URL (shown for the CRUD engine's
request builders). -/
theorem C10_base_url_unwrap_panics (parse : String → Option String)
    (join : String → String → Option String) (b : PocketBaseBuilder)
    (s lang base_url base_path : String) (cfg : CRUDGetOneConfig)
    (hparse : parse s = none)
    (hjoin : join base_url (base_path ++ "/" ++ cfg.id) = none) :
    PocketBaseBuilder.base_url parse b s = .panicked ∧
    PocketBase.new parse s lang = .panicked ∧
    (∀ b' : PocketBaseBuilder, PocketBaseBuilder.base_url parse b s ≠ .ok b') ∧
    CRUDService.get_one_request join base_url base_path cfg = .error .urlError := by
  refine ⟨?_, ?_, ?_, ?_⟩
  · simp [PocketBaseBuilder.base_url, hparse]
  · simp [PocketBase.new, PocketBaseBuilder.base_url, hparse]
  · intro b'
    simp [PocketBaseBuilder.base_url, hparse]
  · simp [CRUDService.get_one_request, hjoin]

/-- Witness for C10 at a parser that rejects a scheme-less string and a
joiner that rejects a cannot-be-a-base URL. -/
theorem C10_base_url_unwrap_panics_witness :
    (fun x => if x = "http://ok" then some x else none) "not a url" = none ∧
    (fun (_ : String) (_ : String) => (none : Option String)) "data:text" ("x" ++ "/" ++ "1") =
      none ∧
    PocketBaseBuilder.base_url (fun x => if x = "http://ok" then some x else none)
      PocketBaseBuilder.new "not a url" = .panicked ∧
    PocketBase.new (fun x => if x = "http://ok" then some x else none) "not a url" "en" =
      .panicked ∧
    CRUDService.get_one_request (fun _ _ => none) "data:text" "x" ⟨"1", []⟩ =
      .error .urlError := by
  refine ⟨by decide, rfl, ?_⟩
  have h := C10_base_url_unwrap_panics (fun x => if x = "http://ok" then some x else none)
    (fun _ _ => none) PocketBaseBuilder.new "not a url" "en" "data:text" "x" ⟨"1", []⟩
    (by decide) rfl
  exact ⟨h.1, h.2.1, h.2.2.2⟩

/-- C9: For every request dispatched through the send wrapper, an
`Accept-Language` header carrying the configured locale is attached, and an
`Authorization` header carrying the stored token is attached exactly when the
Auth State Store currently holds a token; when no token is stored the
request is dispatched without an `Authorization` header and this absence is
not an error — the result is exactly the transport's answer for the decorated
request, run through status classification. -/
theorem C9_send_headers (lang : String) (st : MemState) (req : ReqSpec)
    (transport : ReqSpec → Except RPocketError HttpResponse) :
    (∀ v : StoredValue, memGet st TOKEN_KEY = some v →
      PocketBase.send_request lang memStorage TOKEN_KEY st transport req =
        (match transport { req with headers := req.headers ++
            [("Accept-Language", lang), ("Authorization", v.asString)] } with
         | .error e => .error e
         | .ok resp => handleStatus resp)) ∧
    (memGet st TOKEN_KEY = none →
      PocketBase.send_request lang memStorage TOKEN_KEY st transport req =
        (match transport { req with headers := req.headers ++ [("Accept-Language", lang)] } with
         | .error e => .error e
         | .ok resp => handleStatus resp) ∧
      ("Authorization" ∉ req.headers.map Prod.fst →
        "Authorization" ∉
          (req.headers ++ [("Accept-Language", lang)]).map Prod.fst)) := by
  constructor
  · intro v hv
    simp [PocketBase.send_request, AuthStorage.token, memStorage, hv]
  · intro hv
    constructor
    · simp [PocketBase.send_request, AuthStorage.token, memStorage, hv]
    · intro habs
      simp only [List.map_append, List.mem_append]
      rintro (h | h)
      · exact habs h
      · simp at h

/-- Witness for C9: with the token `"tok"` stored under the default key the
dispatched request carries `Authorization: tok` after `Accept-Language: en`;
with an empty store it carries only `Accept-Language` and the send still
succeeds. -/
theorem C9_send_headers_witness :
    memGet [(TOKEN_KEY, StoredValue.str "tok")] TOKEN_KEY = some (.str "tok") ∧
    PocketBase.send_request "en" memStorage TOKEN_KEY [(TOKEN_KEY, StoredValue.str "tok")]
        (fun _ => .ok ⟨200, .null⟩) ⟨.get, "u", [("X-Base", "1")], [], none⟩ =
      (match (fun (_ : ReqSpec) => (.ok ⟨200, .null⟩ : Except RPocketError HttpResponse))
          { method := .get, url := "u",
            headers := [("X-Base", "1")] ++
              [("Accept-Language", "en"), ("Authorization", (StoredValue.str "tok").asString)],
            query := [], body := none } with
       | .error e => .error e
       | .ok resp => handleStatus resp) ∧
    memGet [] TOKEN_KEY = none ∧
    PocketBase.send_request "en" memStorage TOKEN_KEY []
        (fun _ => .ok ⟨200, .null⟩) ⟨.get, "u", [("X-Base", "1")], [], none⟩ =
      (match (fun (_ : ReqSpec) => (.ok ⟨200, .null⟩ : Except RPocketError HttpResponse))
          { method := .get, url := "u",
            headers := [("X-Base", "1")] ++ [("Accept-Language", "en")],
            query := [], body := none } with
       | .error e => .error e
       | .ok resp => handleStatus resp) :=
  ⟨by decide,
   (C9_send_headers "en" [(TOKEN_KEY, StoredValue.str "tok")]
      ⟨.get, "u", [("X-Base", "1")], [], none⟩ (fun _ => .ok ⟨200, .null⟩)).1
      (.str "tok") (by decide),
   by decide,
   ((C9_send_headers "en" [] ⟨.get, "u", [("X-Base", "1")], [], none⟩
      (fun _ => .ok ⟨200, .null⟩)).2 (by decide)).1⟩

/-! ## Serde round-trip lemmas -/

theorem hasKey_eq_false_iff {α : Type} (l : List (String × α)) (k : String) :
    hasKey l k = false ↔ ∀ p ∈ l, p.1 ≠ k := by
  induction l with
  | nil => simp [hasKey, lookupAssoc]
  | cons hd tl ih =>
    obtain ⟨k0, v⟩ := hd
    by_cases h : k0 = k
    · subst h
      simp [hasKey, lookupAssoc]
    · simp [hasKey, lookupAssoc, h] at ih ⊢
      exact ih

theorem recordFromFields_append_unnamed (xs rest : List (String × Json))
    (cid? cname? : Option String) (eSeen : Bool)
    (e : Option (List (String × ExpandValue))) (buf : List (String × Json))
    (h : ∀ p ∈ xs, p.1 ≠ "collectionId" ∧ p.1 ≠ "collectionName" ∧ p.1 ≠ "expand") :
    recordFromFields (xs ++ rest) cid? cname? eSeen e buf =
      recordFromFields rest cid? cname? eSeen e (buf ++ xs) := by
  induction xs generalizing buf with
  | nil => simp
  | cons hd tl ih =>
    obtain ⟨k, v⟩ := hd
    obtain ⟨h1, h2, h3⟩ := h (k, v) (List.mem_cons_self _ _)
    rw [List.cons_append, recordFromFields]
    simp only [h1, h2, h3, if_false]
    rw [ih (buf ++ [(k, v)]) (fun p hp => h p (List.mem_cons_of_mem _ hp))]
    simp

theorem baseFromBuffer_consume (data : List (String × Json)) (i c u : String)
    (acc : List (String × Json))
    (h : ∀ p ∈ data, p.1 ≠ "id" ∧ p.1 ≠ "created" ∧ p.1 ≠ "updated") :
    baseFromBuffer data (some i) (some c) (some u) acc = some (⟨i, c, u⟩, acc ++ data) := by
  induction data generalizing acc with
  | nil => simp [baseFromBuffer]
  | cons hd tl ih =>
    obtain ⟨k, v⟩ := hd
    obtain ⟨h1, h2, h3⟩ := h (k, v) (List.mem_cons_self _ _)
    rw [baseFromBuffer]
    simp only [h1, h2, h3, if_false]
    rw [ih (acc ++ [(k, v)]) (fun p hp => h p (List.mem_cons_of_mem _ hp))]
    simp

mutual
theorem Record.fromJson_toJson : ∀ r : Record, Record.wf r = true →
    Record.fromJson (Record.toJson r) = some r
  | .mk base cid cname data expand, h => by
      simp only [Record.wf, Bool.and_eq_true, List.all_eq_true, Bool.not_eq_true',
        reservedRecordKeys] at h
      obtain ⟨⟨hnodup, hres⟩, hexp⟩ := h
      have hid : ∀ p ∈ data, p.1 ≠ "id" := fun p hp =>
        (hasKey_eq_false_iff data "id").mp (hres "id" (by simp)) p hp
      have hcr : ∀ p ∈ data, p.1 ≠ "created" := fun p hp =>
        (hasKey_eq_false_iff data "created").mp (hres "created" (by simp)) p hp
      have hup : ∀ p ∈ data, p.1 ≠ "updated" := fun p hp =>
        (hasKey_eq_false_iff data "updated").mp (hres "updated" (by simp)) p hp
      have hci : ∀ p ∈ data, p.1 ≠ "collectionId" := fun p hp =>
        (hasKey_eq_false_iff data "collectionId").mp (hres "collectionId" (by simp)) p hp
      have hcn : ∀ p ∈ data, p.1 ≠ "collectionName" := fun p hp =>
        (hasKey_eq_false_iff data "collectionName").mp (hres "collectionName" (by simp)) p hp
      have hex : ∀ p ∈ data, p.1 ≠ "expand" := fun p hp =>
        (hasKey_eq_false_iff data "expand").mp (hres "expand" (by simp)) p hp
      have hroundexp : parseExpandField (expandFieldToJson expand) = some expand :=
        expandOpt_fromJson_toJson expand hexp
      show Record.fromJson (.obj (BaseModel.toFields base ++
        [("collectionId", .str cid), ("collectionName", .str cname)] ++ data ++
        [("expand", expandFieldToJson expand)])) = some (.mk base cid cname data expand)
      rw [Record.fromJson, BaseModel.toFields]
      rw [show ([("id", Json.str base.id), ("created", Json.str base.created),
          ("updated", Json.str base.updated)] ++
          [("collectionId", Json.str cid), ("collectionName", Json.str cname)] ++ data ++
          [("expand", expandFieldToJson expand)]) =
        [("id", Json.str base.id), ("created", Json.str base.created),
          ("updated", Json.str base.updated)] ++
          (("collectionId", Json.str cid) :: ("collectionName", Json.str cname) :: (data ++
          [("expand", expandFieldToJson expand)])) by simp]
      rw [recordFromFields_append_unnamed _ _ _ _ _ _ _ (by simp)]
      simp only [List.nil_append]
      simp only [recordFromFields, reduceIte, String.reduceEq, Option.isSome_none,
        Bool.false_eq_true, if_true, if_false, Json.asStr]
      rw [recordFromFields_append_unnamed data _ _ _ _ _ _
        (fun p hp => ⟨hci p hp, hcn p hp, hex p hp⟩)]
      simp only [recordFromFields, reduceIte, String.reduceEq, Option.isSome_none,
        Bool.false_eq_true, if_true, if_false, Json.asStr, hroundexp, List.cons_append,
        List.nil_append, baseFromBuffer]
      rw [baseFromBuffer_consume data base.id base.created base.updated []
        (fun p hp => ⟨hid p hp, hcr p hp, hup p hp⟩)]
      simp
theorem expandOpt_fromJson_toJson : ∀ eo : Option (List (String × ExpandValue)),
    expandOptWf eo = true → parseExpandField (expandFieldToJson eo) = some eo
  | none, _ => by
      simp only [expandFieldToJson, parseExpandField]
  | some m, h => by
      have hm : expandEntriesWf m = true := by
        simp only [expandOptWf, Bool.and_eq_true] at h
        exact h.2
      simp only [expandFieldToJson, parseExpandField, expandEntries_fromJson_toJson m hm]
theorem expandEntries_fromJson_toJson : ∀ m : List (String × ExpandValue),
    expandEntriesWf m = true →
    parseExpandEntries (expandEntriesToJson m) = some m
  | [], _ => by
      simp only [expandEntriesToJson, parseExpandEntries]
  | (k, v) :: rest, h => by
      simp only [expandEntriesWf, Bool.and_eq_true] at h
      simp only [expandEntriesToJson, parseExpandEntries,
        expandValue_fromJson_toJson v h.1, expandEntries_fromJson_toJson rest h.2]
theorem expandValue_fromJson_toJson : ∀ ev : ExpandValue, ExpandValue.wf ev = true →
    ExpandValue.fromJson (ExpandValue.toJson ev) = some ev
  | .record r, h => by
      have hr := Record.fromJson_toJson r (by simpa [ExpandValue.wf] using h)
      have hobj : ∃ fs, Record.toJson r = .obj fs := by
        obtain ⟨base, cid, cname, data, expand⟩ := r
        exact ⟨_, rfl⟩
      obtain ⟨fs, hfs⟩ := hobj
      rw [hfs] at hr
      simp only [ExpandValue.toJson, hfs, ExpandValue.fromJson, hr]
  | .listRecords rs, h => by
      have hrs : recordsWf rs = true := by simpa [ExpandValue.wf] using h
      have harr : Record.fromJson (.arr (recordsToJson rs)) = none := by
        simp only [Record.fromJson]
      simp only [ExpandValue.toJson, ExpandValue.fromJson, harr,
        records_fromJson_toJson rs hrs]
theorem records_fromJson_toJson : ∀ rs : List Record, recordsWf rs = true →
    recordsFromJson (recordsToJson rs) = some rs
  | [], _ => by
      simp only [recordsToJson, recordsFromJson]
  | r :: rest, h => by
      simp only [recordsWf, Bool.and_eq_true] at h
      simp only [recordsToJson, recordsFromJson, Record.fromJson_toJson r h.1,
        records_fromJson_toJson rest h.2]
end

theorem authPayload_fromJson_of_none (j : Json) (h1 : Record.fromJson j = none)
    (h2 : Admin.fromJson j = none) : AuthPayload.fromJson j = none := by
  simp only [AuthPayload.fromJson, h1, h2]

theorem authPayload_fromJson_of_record (j : Json) (r : Record)
    (h : Record.fromJson j = some r) : AuthPayload.fromJson j = some (.user r) := by
  simp only [AuthPayload.fromJson, h]

theorem save_then_user_or_admin (st : MemState) (token : String) (payload : AuthPayload) :
    (AuthStorage.save memStorage TOKEN_KEY USER_OR_ADMIN_KEY st token payload).1 = .ok () ∧
    AuthStorage.user_or_admin memStorage USER_OR_ADMIN_KEY
      (AuthStorage.save memStorage TOKEN_KEY USER_OR_ADMIN_KEY st token payload).2 =
      (match AuthPayload.fromJson payload.toJson with
       | some p => .ok (some p)
       | none => .error .serdeError) := by
  constructor
  · rfl
  · show AuthStorage.user_or_admin memStorage USER_OR_ADMIN_KEY
      (memSet (memSet st TOKEN_KEY (.str token)) USER_OR_ADMIN_KEY
        (.json payload.toJson)) = _
    simp only [AuthStorage.user_or_admin, memStorage, memGet_memSet_self]

set_option maxHeartbeats 1600000 in
/-- C7 counterexample: for the record whose dynamic field map carries a
`collectionId` key, saving `AuthPayload::User` succeeds but loading the
identity back fails with `SerdeError` (the serialization holds
`collectionId` twice and deserialization rejects the repeated field) — it
does not yield `Some` of the original payload, refuting the round trip for
every record. -/
theorem C7_user_payload_roundtrip_counterexample :
    (AuthStorage.save memStorage TOKEN_KEY USER_OR_ADMIN_KEY [] "tok" (.user badRecord)).1 =
      .ok () ∧
    AuthStorage.user_or_admin memStorage USER_OR_ADMIN_KEY
      (AuthStorage.save memStorage TOKEN_KEY USER_OR_ADMIN_KEY [] "tok"
        (.user badRecord)).2 = .error .serdeError := by
  have h1 : Record.toJson badRecord = .obj [("id", .str "a"), ("created", .str "b"),
      ("updated", .str "c"), ("collectionId", .str "cid"), ("collectionName", .str "cname"),
      ("collectionId", .str "x"), ("expand", .null)] := by
    simp only [badRecord, Record.toJson, BaseModel.toFields, expandFieldToJson,
      List.cons_append, List.nil_append, List.append_nil]
  have hparse : Record.fromJson (Record.toJson badRecord) = none := by
    rw [h1, Record.fromJson]
    simp only [recordFromFields, reduceIte, String.reduceEq, Option.isSome_none,
      Option.isSome_some, Bool.false_eq_true, if_true, if_false, Json.asStr]
  have hadmin : Admin.fromJson (Record.toJson badRecord) = none := by
    rw [h1, Admin.fromJson]
    simp only [Admin.fromJson.go, reduceIte, String.reduceEq, Option.isSome_none,
      Option.isSome_some, Bool.false_eq_true, if_true, if_false, Json.asStr, Json.asInt,
      List.cons_append, List.nil_append, List.append_nil]
  have hap : AuthPayload.fromJson (AuthPayload.toJson (.user badRecord)) = none := by
    have ht : AuthPayload.toJson (.user badRecord) = Record.toJson badRecord := rfl
    rw [ht]
    exact authPayload_fromJson_of_none _ hparse hadmin
  have h := save_then_user_or_admin [] "tok" (.user badRecord)
  refine ⟨h.1, ?_⟩
  rw [h.2, hap]

/-- C7 (amended): for every hereditarily well-formed record `r` — its dynamic
field map has pairwise-distinct keys, none of which is one of the fixed
schema keys `id`, `created`, `updated`, `collectionId`, `collectionName`,
`expand`, and the same holds for every record inside `expand` — saving the
payload `AuthPayload::User(r)` together with any token via the Auth State
Store's `save` and then loading the identity back yields `Some` of a payload
equal to `AuthPayload::User(r)`: the JSON serialize-then-deserialize round
trip through the key-value store restores the original record. -/
theorem C7_user_payload_roundtrip (r : Record) (token : String) (st : MemState)
    (h : Record.wf r = true) :
    (AuthStorage.save memStorage TOKEN_KEY USER_OR_ADMIN_KEY st token (.user r)).1 =
      .ok () ∧
    AuthStorage.user_or_admin memStorage USER_OR_ADMIN_KEY
      (AuthStorage.save memStorage TOKEN_KEY USER_OR_ADMIN_KEY st token (.user r)).2 =
      .ok (some (.user r)) := by
  have hap : AuthPayload.fromJson (AuthPayload.toJson (.user r)) = some (.user r) := by
    have ht : AuthPayload.toJson (.user r) = Record.toJson r := rfl
    rw [ht]
    exact authPayload_fromJson_of_record _ _ (Record.fromJson_toJson r h)
  have hsave := save_then_user_or_admin st token (.user r)
  refine ⟨hsave.1, ?_⟩
  rw [hsave.2, hap]

theorem recordAuthOutcome_of_error {T : Type} (e : RPocketError) (wout : Bool)
    (st : MemState) (jr : Option String) (sendOf : String → Except RPocketError HttpResponse)
    (decodeT : Json → Option T) :
    RecordAuthOutcomeSpec wout st jr sendOf decodeT (.error e, st) := by
  refine ⟨fun _ => ⟨rfl, ?_⟩, fun _ => ⟨Or.inl rfl, ?_⟩⟩ <;>
    exact fun t ht => by simp at ht

theorem adminAuthOutcome_of_error {T : Type} (e : RPocketError) (wout : Bool)
    (st : MemState) (jr : Option String) (sendOf : String → Except RPocketError HttpResponse)
    (decodeT : Json → Option T) :
    AdminAuthOutcomeSpec wout st jr sendOf decodeT (.error e, st) := by
  refine ⟨fun _ => ⟨rfl, ?_⟩, fun _ => ⟨Or.inl rfl, ?_⟩⟩ <;>
    exact fun t ht => by simp at ht

theorem token_after_recordSave (st : MemState) (ar : RecordAuthResponse) :
    AuthStorage.token memStorage TOKEN_KEY (recordSavedState st ar) = .ok (some ar.token) := by
  have h1 : memGet (recordSavedState st ar) TOKEN_KEY = some (.str ar.token) := by
    rw [recordSavedState,
      memGet_memSet_ne _ _ _ _ (by decide : TOKEN_KEY ≠ USER_OR_ADMIN_KEY),
      memGet_memSet_self]
  simp [AuthStorage.token, memStorage, h1, StoredValue.asString]

theorem identity_after_recordSave (st : MemState) (ar : RecordAuthResponse) :
    memStorage.get (recordSavedState st ar) USER_OR_ADMIN_KEY =
      .ok (some (.json (AuthPayload.user ar.record).toJson)) := by
  simp [memStorage, recordSavedState, memGet_memSet_self]

theorem token_after_adminSave (st : MemState) (ar : AdminAuthResponse) :
    AuthStorage.token memStorage TOKEN_KEY (adminSavedState st ar) = .ok (some ar.token) := by
  have h1 : memGet (adminSavedState st ar) TOKEN_KEY = some (.str ar.token) := by
    rw [adminSavedState,
      memGet_memSet_ne _ _ _ _ (by decide : TOKEN_KEY ≠ USER_OR_ADMIN_KEY),
      memGet_memSet_self]
  simp [AuthStorage.token, memStorage, h1, StoredValue.asString]

theorem identity_after_adminSave (st : MemState) (ar : AdminAuthResponse) :
    memStorage.get (adminSavedState st ar) USER_OR_ADMIN_KEY =
      .ok (some (.json (AuthPayload.admin ar.admin).toJson)) := by
  simp [memStorage, adminSavedState, memGet_memSet_self]

theorem record_save_auth_response_eq {T : Type} (decodeT : Json → Option T) (body : Json)
    (st : MemState) (ar : RecordAuthResponse)
    (hp : RecordAuthResponse.fromJson body = some ar) :
    RecordService.save_auth_response memStorage TOKEN_KEY USER_OR_ADMIN_KEY decodeT body st =
      (match decodeT ar.toJson with
       | some t => (.ok t, recordSavedState st ar)
       | none => (.error .serdeError, recordSavedState st ar)) := by
  simp only [RecordService.save_auth_response, hp, AuthStorage.save, memStorage,
    recordSavedState]

theorem admin_save_auth_response_eq {T : Type} (decodeT : Json → Option T) (body : Json)
    (st : MemState) (ar : AdminAuthResponse)
    (hp : AdminAuthResponse.fromJson body = some ar) :
    AdminService.save_auth_response memStorage TOKEN_KEY USER_OR_ADMIN_KEY decodeT body st =
      (match decodeT ar.toJson with
       | some t => (.ok t, adminSavedState st ar)
       | none => (.error .serdeError, adminSavedState st ar)) := by
  simp only [AdminService.save_auth_response, hp, AuthStorage.save, memStorage,
    adminSavedState]

theorem recordHandler_true_eq {T : Type} (decodeT : Json → Option T)
    (resp : HttpResponse) (st : MemState) :
    RecordService.authResponseHandler memStorage TOKEN_KEY USER_OR_ADMIN_KEY decodeT true
      (.ok resp) st =
      (match decodeT resp.body with
       | some t => (.ok t, st)
       | none => (.error .requestError, st)) := by
  simp [RecordService.authResponseHandler]

theorem recordHandler_false_eq {T : Type} (decodeT : Json → Option T)
    (resp : HttpResponse) (st : MemState) :
    RecordService.authResponseHandler memStorage TOKEN_KEY USER_OR_ADMIN_KEY decodeT false
      (.ok resp) st =
      RecordService.save_auth_response memStorage TOKEN_KEY USER_OR_ADMIN_KEY decodeT
        resp.body st := by
  simp [RecordService.authResponseHandler]

theorem adminHandler_true_eq {T : Type} (decodeT : Json → Option T)
    (resp : HttpResponse) (st : MemState) :
    AdminService.authResponseHandler memStorage TOKEN_KEY USER_OR_ADMIN_KEY decodeT true
      (.ok resp) st =
      (match decodeT resp.body with
       | some t => (.ok t, st)
       | none => (.error .requestError, st)) := by
  simp [AdminService.authResponseHandler]

theorem adminHandler_false_eq {T : Type} (decodeT : Json → Option T)
    (resp : HttpResponse) (st : MemState) :
    AdminService.authResponseHandler memStorage TOKEN_KEY USER_OR_ADMIN_KEY decodeT false
      (.ok resp) st =
      AdminService.save_auth_response memStorage TOKEN_KEY USER_OR_ADMIN_KEY decodeT
        resp.body st := by
  simp [AdminService.authResponseHandler]

theorem recordHandler_outcome {T : Type} (decodeT : Json → Option T) (wout : Bool)
    (sendOf : String → Except RPocketError HttpResponse) (u : String) (st : MemState) :
    RecordAuthOutcomeSpec wout st (some u) sendOf decodeT
      (RecordService.authResponseHandler memStorage TOKEN_KEY USER_OR_ADMIN_KEY decodeT wout
        (sendOf u) st) := by
  cases hs : sendOf u with
  | error e => exact recordAuthOutcome_of_error e wout st (some u) sendOf decodeT
  | ok resp =>
    cases hw : wout with
    | true =>
      rw [recordHandler_true_eq]
      refine ⟨fun _ => ?_, fun hfalse => by simp at hfalse⟩
      cases hd : decodeT resp.body with
      | none => exact ⟨rfl, fun t ht => by simp at ht⟩
      | some t0 =>
        refine ⟨rfl, fun t ht => ?_⟩
        have ht' : Except.ok (ε := RPocketError) t0 = .ok t := ht
        cases ht'
        exact ⟨u, resp, rfl, hs, hd⟩
    | false =>
      rw [recordHandler_false_eq]
      cases hp : RecordAuthResponse.fromJson resp.body with
      | none =>
        have hnone : RecordService.save_auth_response memStorage TOKEN_KEY USER_OR_ADMIN_KEY
            decodeT resp.body st = (.error .requestError, st) := by
          simp only [RecordService.save_auth_response, hp]
        rw [hnone]
        exact recordAuthOutcome_of_error _ _ st _ _ _
      | some ar =>
        rw [record_save_auth_response_eq decodeT resp.body st ar hp]
        cases hd : decodeT ar.toJson with
        | none =>
          refine ⟨fun htrue => by simp at htrue,
            fun _ => ⟨Or.inr ⟨u, resp, ar, rfl, hs, hp, rfl⟩, fun t ht => ?_⟩⟩
          have ht' : Except.error (α := T) RPocketError.serdeError = .ok t := ht
          simp at ht'
        | some t0 =>
          refine ⟨fun htrue => by simp at htrue,
            fun _ => ⟨Or.inr ⟨u, resp, ar, rfl, hs, hp, rfl⟩, fun t ht => ?_⟩⟩
          have ht' : Except.ok (ε := RPocketError) t0 = .ok t := ht
          cases ht'
          exact ⟨u, resp, ar, rfl, hs, hp, rfl, hd, token_after_recordSave st ar,
            identity_after_recordSave st ar⟩

theorem adminHandler_outcome {T : Type} (decodeT : Json → Option T) (wout : Bool)
    (sendOf : String → Except RPocketError HttpResponse) (u : String) (st : MemState) :
    AdminAuthOutcomeSpec wout st (some u) sendOf decodeT
      (AdminService.authResponseHandler memStorage TOKEN_KEY USER_OR_ADMIN_KEY decodeT wout
        (sendOf u) st) := by
  cases hs : sendOf u with
  | error e => exact adminAuthOutcome_of_error e wout st (some u) sendOf decodeT
  | ok resp =>
    cases hw : wout with
    | true =>
      rw [adminHandler_true_eq]
      refine ⟨fun _ => ?_, fun hfalse => by simp at hfalse⟩
      cases hd : decodeT resp.body with
      | none => exact ⟨rfl, fun t ht => by simp at ht⟩
      | some t0 =>
        refine ⟨rfl, fun t ht => ?_⟩
        have ht' : Except.ok (ε := RPocketError) t0 = .ok t := ht
        cases ht'
        exact ⟨u, resp, rfl, hs, hd⟩
    | false =>
      rw [adminHandler_false_eq]
      cases hp : AdminAuthResponse.fromJson resp.body with
      | none =>
        have hnone : AdminService.save_auth_response memStorage TOKEN_KEY USER_OR_ADMIN_KEY
            decodeT resp.body st = (.error .requestError, st) := by
          simp only [AdminService.save_auth_response, hp]
        rw [hnone]
        exact adminAuthOutcome_of_error _ _ st _ _ _
      | some ar =>
        rw [admin_save_auth_response_eq decodeT resp.body st ar hp]
        cases hd : decodeT ar.toJson with
        | none =>
          refine ⟨fun htrue => by simp at htrue,
            fun _ => ⟨Or.inr ⟨u, resp, ar, rfl, hs, hp, rfl⟩, fun t ht => ?_⟩⟩
          have ht' : Except.error (α := T) RPocketError.serdeError = .ok t := ht
          simp at ht'
        | some t0 =>
          refine ⟨fun htrue => by simp at htrue,
            fun _ => ⟨Or.inr ⟨u, resp, ar, rfl, hs, hp, rfl⟩, fun t ht => ?_⟩⟩
          have ht' : Except.ok (ε := RPocketError) t0 = .ok t := ht
          cases ht'
          exact ⟨u, resp, ar, rfl, hs, hp, rfl, hd, token_after_adminSave st ar,
            identity_after_adminSave st ar⟩

/-- Witness for C7 at the repository's mutate-test record fixture and the
empty store. -/
theorem C7_user_payload_roundtrip_witness :
    Record.wf testRecord = true ∧
    (AuthStorage.save memStorage TOKEN_KEY USER_OR_ADMIN_KEY [] "T"
        (.user testRecord)).1 = .ok () ∧
    AuthStorage.user_or_admin memStorage USER_OR_ADMIN_KEY
      (AuthStorage.save memStorage TOKEN_KEY USER_OR_ADMIN_KEY [] "T"
        (.user testRecord)).2 = .ok (some (.user testRecord)) :=
  have hwf : Record.wf testRecord = true := by
    simp [testRecord, Record.wf, keysNodup, hasKey, lookupAssoc, reservedRecordKeys,
      expandOptWf]
  ⟨hwf, C7_user_payload_roundtrip testRecord "T" [] hwf⟩

/-- C2 (amended): for every authentication call (`auth_with_password`,
`auth_with_oauth2`, `auth_refresh` on the record service;
`auth_with_password`, `auth_refresh` on the admin service) over the default
in-memory auth state: with `without_saving = true` the store is never
mutated and a success returns the direct decode of the dispatched response's
body; with `without_saving = false`, if the call succeeds then the token and
the identity payload (`AuthPayload::User` for record endpoints,
`AuthPayload::Admin` for admin endpoints) of the auth response parsed from
the body of the response the transport returned for the operation's own
request are both saved to the Auth State Store, and the decoded payload of
that same auth response is returned to the caller; on failure the store is
either exactly as before the call (failure before the save step) or holds
such a completed save — a failure after the save (re-decoding the saved
payload into the caller's type) is not rolled back. -/
theorem C2_auth_state_mutation {T B : Type} (encodeB : B → List (String × Json))
    (decodeT : Json → Option T) (join : String → String → Option String) (lang : String)
    (transport : ReqSpec → Except RPocketError HttpResponse) (base_url collection : String)
    (st : MemState) (cfg_rp : RecordAuthWithPasswordConfig B)
    (cfg_ro : RecordAuthWithOAuth2Config B) (cfg_rr : RecordAuthRefreshConfig B)
    (cfg_ap : AdminAuthWithPasswordConfig B) (cfg_ar : AdminAuthRefreshConfig B) :
    RecordAuthOutcomeSpec cfg_rp.without_saving st
      (join base_url ("/api/collections/" ++ collection ++ "/auth-with-password"))
      (fun u => PocketBase.send_request lang memStorage TOKEN_KEY st transport
        ⟨.post, u, [("Content-Type", "application/json")], [],
         some (cfg_rp.toJson encodeB)⟩)
      decodeT
      (RecordService.auth_with_password encodeB decodeT join lang memStorage TOKEN_KEY
        USER_OR_ADMIN_KEY transport base_url collection cfg_rp st) ∧
    RecordAuthOutcomeSpec cfg_ro.without_saving st
      (join base_url ("/api/collections/" ++ collection ++ "/auth-with-oauth2"))
      (fun u => PocketBase.send_request lang memStorage TOKEN_KEY st transport
        ⟨.post, u, [("Content-Type", "application/json")], [],
         some (cfg_ro.toJson encodeB)⟩)
      decodeT
      (RecordService.auth_with_oauth2 encodeB decodeT join lang memStorage TOKEN_KEY
        USER_OR_ADMIN_KEY transport base_url collection cfg_ro st) ∧
    RecordAuthOutcomeSpec cfg_rr.without_saving st
      (join base_url ("/api/collections/" ++ collection ++ "/auth-refresh"))
      (fun u => PocketBase.send_request lang memStorage TOKEN_KEY st transport
        ⟨.post, u, [("Content-Type", "application/json")], [],
         some (cfg_rr.toJson encodeB)⟩)
      decodeT
      (RecordService.auth_refresh encodeB decodeT join lang memStorage TOKEN_KEY
        USER_OR_ADMIN_KEY transport base_url collection cfg_rr st) ∧
    AdminAuthOutcomeSpec cfg_ap.without_saving st
      (join base_url "/api/admins/auth-with-password")
      (fun u => PocketBase.send_request lang memStorage TOKEN_KEY st transport
        ⟨.post, u, [("Content-Type", "application/json")], cfg_ap.query_params,
         some (cfg_ap.toJson encodeB)⟩)
      decodeT
      (AdminService.auth_with_password encodeB decodeT join lang memStorage TOKEN_KEY
        USER_OR_ADMIN_KEY transport base_url cfg_ap st) ∧
    AdminAuthOutcomeSpec cfg_ar.without_saving st
      (join base_url "/api/admins/auth-refresh")
      (fun u => PocketBase.send_request lang memStorage TOKEN_KEY st transport
        ⟨.post, u, [("Content-Type", "application/json")], cfg_ar.query_params,
         some (cfg_ar.toJson encodeB)⟩)
      decodeT
      (AdminService.auth_refresh encodeB decodeT join lang memStorage TOKEN_KEY
        USER_OR_ADMIN_KEY transport base_url cfg_ar st) := by
  refine ⟨?_, ?_, ?_, ?_, ?_⟩
  · cases hj : join base_url ("/api/collections/" ++ collection ++ "/auth-with-password") with
    | none =>
      simp only [RecordService.auth_with_password, hj]
      exact recordAuthOutcome_of_error _ _ st _ _ _
    | some u =>
      simp only [RecordService.auth_with_password, hj]
      exact recordHandler_outcome decodeT _ _ u st
  · cases hj : join base_url ("/api/collections/" ++ collection ++ "/auth-with-oauth2") with
    | none =>
      simp only [RecordService.auth_with_oauth2, hj]
      exact recordAuthOutcome_of_error _ _ st _ _ _
    | some u =>
      simp only [RecordService.auth_with_oauth2, hj]
      exact recordHandler_outcome decodeT _ _ u st
  · cases hj : join base_url ("/api/collections/" ++ collection ++ "/auth-refresh") with
    | none =>
      simp only [RecordService.auth_refresh, hj]
      exact recordAuthOutcome_of_error _ _ st _ _ _
    | some u =>
      simp only [RecordService.auth_refresh, hj]
      exact recordHandler_outcome decodeT _ _ u st
  · cases hj : join base_url "/api/admins/auth-with-password" with
    | none =>
      simp only [AdminService.auth_with_password, hj]
      exact adminAuthOutcome_of_error _ _ st _ _ _
    | some u =>
      simp only [AdminService.auth_with_password, hj]
      exact adminHandler_outcome decodeT _ _ u st
  · cases hj : join base_url "/api/admins/auth-refresh" with
    | none =>
      simp only [AdminService.auth_refresh, hj]
      exact adminAuthOutcome_of_error _ _ st _ _ _
    | some u =>
      simp only [AdminService.auth_refresh, hj]
      exact adminHandler_outcome decodeT _ _ u st

theorem recordAuthResponse_fromJson_token_record (tok : String) (rj : Json) (r : Record)
    (h : Record.fromJson rj = some r) :
    RecordAuthResponse.fromJson (.obj [("token", .str tok), ("record", rj)]) =
      some ⟨tok, r, none⟩ := by
  simp only [RecordAuthResponse.fromJson, RecordAuthResponse.fromJson.go, reduceIte,
    String.reduceEq, Option.isSome_none, Option.isSome_some, Bool.false_eq_true, if_true,
    if_false, Json.asStr, h]

theorem handleStatus_200 (b : Json) : handleStatus ⟨200, b⟩ = .ok ⟨200, b⟩ := by
  simp [handleStatus, isSuccess]

theorem recordSavedState_nil (ar : RecordAuthResponse) :
    recordSavedState [] ar =
      [(TOKEN_KEY, .str ar.token), (USER_OR_ADMIN_KEY, .json (AuthPayload.user ar.record).toJson)] := by
  simp [recordSavedState, memSet, TOKEN_KEY, USER_OR_ADMIN_KEY]

set_option maxHeartbeats 1600000 in
/-- C2 counterexample: a record `auth_with_password` call against a 200
response with a valid auth body, whose caller type fails to decode the
re-serialized payload (`serde_json::from_value::<T>` returns an error),
fails with `SerdeError` — yet the Auth State Store now holds the new token
and identity: the store is NOT left exactly as it was before the failed
call. -/
theorem C2_fail_after_mutation_counterexample :
    (RecordService.auth_with_password (T := Unit) (fun b => b) (fun _ => none)
        (fun b p => some (b ++ p)) "en" memStorage TOKEN_KEY USER_OR_ADMIN_KEY
        (fun _ => .ok ⟨200, .obj [("token", .str "T"), ("record", Record.toJson testRecord)]⟩)
        "http://h" "users" ⟨"i", "p", [], [], false⟩ []).1 = .error .serdeError ∧
    (RecordService.auth_with_password (T := Unit) (fun b => b) (fun _ => none)
        (fun b p => some (b ++ p)) "en" memStorage TOKEN_KEY USER_OR_ADMIN_KEY
        (fun _ => .ok ⟨200, .obj [("token", .str "T"), ("record", Record.toJson testRecord)]⟩)
        "http://h" "users" ⟨"i", "p", [], [], false⟩ []).2 =
      [(TOKEN_KEY, .str "T"),
       (USER_OR_ADMIN_KEY, .json (AuthPayload.user testRecord).toJson)] ∧
    ([(TOKEN_KEY, StoredValue.str "T"),
      (USER_OR_ADMIN_KEY, StoredValue.json (AuthPayload.user testRecord).toJson)] ≠
      ([] : MemState)) := by
  have hwf : Record.wf testRecord = true := by
    simp [testRecord, Record.wf, keysNodup, hasKey, lookupAssoc, reservedRecordKeys,
      expandOptWf]
  have hrt := Record.fromJson_toJson testRecord hwf
  have hp := recordAuthResponse_fromJson_token_record "T" (Record.toJson testRecord)
    testRecord hrt
  have hop : RecordService.auth_with_password (T := Unit) (fun b => b) (fun _ => none)
      (fun b p => some (b ++ p)) "en" memStorage TOKEN_KEY USER_OR_ADMIN_KEY
      (fun _ => .ok ⟨200, .obj [("token", .str "T"), ("record", Record.toJson testRecord)]⟩)
      "http://h" "users" ⟨"i", "p", [], [], false⟩ [] =
      (.error .serdeError, recordSavedState [] ⟨"T", testRecord, none⟩) := by
    rw [RecordService.auth_with_password]
    simp only []
    rw [send_request_const_transport, handleStatus_200, recordHandler_false_eq]
    rw [record_save_auth_response_eq _ _ _ _ hp]
  have hstate := recordSavedState_nil ⟨"T", testRecord, none⟩
  refine ⟨?_, ?_, by simp⟩
  · rw [hop]
  · rw [hop, hstate]

/-- Witness for C2: a call with `without_saving = true` leaves the empty
store empty. -/
theorem C2_auth_state_mutation_witness :
    (true : Bool) = true ∧
    (RecordService.auth_with_password (T := Unit) (B := List (String × Json)) (fun b => b)
        (fun _ => none) (fun b p => some (b ++ p)) "en" memStorage TOKEN_KEY
        USER_OR_ADMIN_KEY (fun _ => .ok ⟨200, .null⟩) "http://h" "users"
        ⟨"i", "p", [], [], true⟩ []).2 = ([] : MemState) :=
  ⟨rfl,
   (((C2_auth_state_mutation (fun b => b) (fun _ => none) (fun b p => some (b ++ p)) "en"
      (fun _ => .ok ⟨200, .null⟩) "http://h" "users" []
      ⟨"i", "p", [], [], true⟩ ⟨"pr", "c", "cv", "ru", [], [], true⟩
      ⟨[], [], true⟩ ⟨"i", "p", [], [], true⟩ ⟨[], [], true⟩).1).1 rfl).1⟩

end RPocket
